import Mathlib

/-!
Shallow embedding of `board.py` (Python Settlers of Catan, by Tao Lin).

Conventions used throughout:
* numpy `int8` arrays holding player ids (`roads`, `settlements`, `cities`)
  are modelled as `List Nat` — the code only ever stores the ids passed in
  (0 = unowned, 1..N = players), so no `int8` wrap-around is exercised;
* resource hands (Python dicts with the five fixed keys, iterated in the
  insertion order Wood, Brick, Wheat, Rock, Sheep) are a `Bank` structure;
* Python exceptions are an explicit `PyErr`; operations that can both mutate
  state and raise return `Outcome × Board`, where the board component carries
  the (possibly partially mutated, exactly as in Python) state;
* the two CSV incidence matrices (`road.csv`: 72 road rows × 54 junction
  columns; `tile.csv`: 19 tile rows × 54 junction columns) are external data
  (spec §6) and appear as fields of the board; theorems quantify over them
  under the shape invariant `Board.WF`;
* `random.randint` draws are passed in as explicit arguments.
-/

namespace Catan

/-- The five resource kinds, in the dict insertion order of `bank_statement`. -/
inductive Resource
  | wood | brick | wheat | rock | sheep
deriving DecidableEq

/-- A resource dict (`bank_statement.copy()` shape): one integer per kind. -/
structure Bank where
  wood : Int
  brick : Int
  wheat : Int
  rock : Int
  sheep : Int
deriving DecidableEq

/-- `bank_statement`: all five counts zero. -/
def Bank.zero : Bank := ⟨0, 0, 0, 0, 0⟩

/-- Dict lookup on a `Bank`. -/
def Bank.get (bk : Bank) : Resource → Int
  | .wood => bk.wood
  | .brick => bk.brick
  | .wheat => bk.wheat
  | .rock => bk.rock
  | .sheep => bk.sheep

/-- Dict update on a `Bank`. -/
def Bank.setR (bk : Bank) (r : Resource) (v : Int) : Bank :=
  match r with
  | .wood => { bk with wood := v }
  | .brick => { bk with brick := v }
  | .wheat => { bk with wheat := v }
  | .rock => { bk with rock := v }
  | .sheep => { bk with sheep := v }

/-- Pointwise addition of two resource dicts (the loop in `Player.get`). -/
def Bank.add (a c : Bank) : Bank :=
  ⟨a.wood + c.wood, a.brick + c.brick, a.wheat + c.wheat, a.rock + c.rock,
    a.sheep + c.sheep⟩

/-- Pointwise subtraction (the loop in `Player.spend`). -/
def Bank.sub (a c : Bank) : Bank :=
  ⟨a.wood - c.wood, a.brick - c.brick, a.wheat - c.wheat, a.rock - c.rock,
    a.sheep - c.sheep⟩

/-- `sum(self.resources.values())`. -/
def Bank.total (a : Bank) : Int := a.wood + a.brick + a.wheat + a.rock + a.sheep

/-- Dict iteration order of `self.resources` (Python 3.7 insertion order). -/
def resourceOrder : List Resource := [.wood, .brick, .wheat, .rock, .sheep]

/-- The development card strings dispatched on in `activate_devcard`;
`unknown` stands for any other string. -/
inductive Card
  | knight | monopolyCard | roadBuildingCard | victory | yearOfPlentyCard
  | unknown
deriving DecidableEq

/-- Port kinds held in `Border.map` / `Player.ports` (claim-irrelevant). -/
inductive PortKind
  | wild | res (r : Resource)
deriving DecidableEq

/-- Python exceptions that the embedded code can raise. -/
inductive PyErr
  /-- out-of-range list / ndarray / DataFrame positional access -/
  | indexError
  /-- operation on operands of the wrong type (e.g. indexing a list with a
      `Player` object, `get(False)`, calling `get_devcard` with a missing
      argument, setting an attribute on an `int`) -/
  | typeError
  /-- numpy broadcast failure: elementwise arithmetic on arrays whose
      lengths differ (72-long `self.roads` times a 54-long junction row) -/
  | valueError
  /-- `random.randint(1, total)` with `total < 1` -/
  | randintError
  /-- recursion limit (modelled by fuel; never actually reached because the
      crawler raises earlier) -/
  | recursionError
deriving DecidableEq

/-- The typed failure kinds of the spec, one per `print(...)`/`return False`
site of `board.py`. -/
inductive Failure
  /-- `build_road`: "You're Blocked!" (edge owned, or no road piece left) -/
  | alreadyOccupied
  /-- `build_road`: "No connection!" -/
  | notConnected
  /-- "No Resources!" (`spend` failed) -/
  | noResources
  /-- `build_settlement`: "You're Blocked" (distance-2 rule) -/
  | blocked
  /-- `build_settlement`: "No Road" -/
  | noRoad
  /-- `build_city`: "You need a settlement there first!" -/
  | noSettlementThere
  /-- `buy_devcard`: "You losers used all the dev cards!" -/
  | emptyDeck
  /-- `rob`: "The robber must move to a different tile!" -/
  | robberMustMove
  /-- `rob`: "That player isn't next to that tile!" -/
  | targetNotAdjacent
  /-- `monopoly`: "Monopoly takes a bank statement!" -/
  | badMonopolyPayload
  /-- `year_of_plenty`: "That wasn't two resources!" -/
  | notTwoResources
  /-- `year_of_plenty`: "That wasn't a receipt!" -/
  | badReceipt
  /-- `road_building`: "That isn't 2 locations!" (printed on every failing
      path of `road_building`, including a failing free build) -/
  | badRoadBuildingPayload
  /-- `activate_devcard`: "You can't use that dev card!" -/
  | cantUseCard
  /-- `activate_devcard`: "Not a valid card" -/
  | notValidCard
deriving DecidableEq

/-- Result of a Python method that returns `True`/`False` or raises. -/
inductive Outcome
  /-- the method returned `True` -/
  | success
  /-- the method printed a diagnostic and returned `False`; the state is
      whatever the method left behind -/
  | failure (k : Failure)
  /-- an exception escaped the method; the state is whatever had been
      mutated before the raise -/
  | crash (e : PyErr)
deriving DecidableEq

/-- `Outcome.success` test. -/
def Outcome.isSuccess : Outcome → Bool
  | .success => true
  | _ => false

/-- `Outcome.crash` test. -/
def Outcome.isCrash : Outcome → Bool
  | .crash _ => true
  | _ => false

/-- `Player` from `board.py` (the `board` back-pointer is replaced by
board-level handling of `addvp`'s win callback). -/
structure Player where
  resources : Bank
  victory_points : Int
  facedown_devcards : List (Card × Int)
  faceup_devcards : List (Card × Int)
  ports : List (Option PortKind)
  winvp : Int
  longest_road : Bool
  road_length : Int
  knight_count : Int
  largest_army : Bool
  settlements : Int
  cities : Int
  roads : Int
deriving DecidableEq

/-- `Player.__init__(board, winvp=10)`. -/
def Player.init (winvp : Int) : Player :=
  { resources := Bank.zero, victory_points := 0, facedown_devcards := [],
    faceup_devcards := [], ports := [], winvp := winvp, longest_road := false,
    road_length := 0, knight_count := 0, largest_army := false,
    settlements := 5, cities := 4, roads := 15 }

/-- `Player.has`: every held count is at least the requested count. -/
def Player.has (p : Player) (c : Bank) : Bool :=
  resourceOrder.all fun r => decide (c.get r ≤ p.resources.get r)

/-- `Player.get`: unconditional pointwise credit. -/
def Player.get (p : Player) (c : Bank) : Player :=
  { p with resources := p.resources.add c }

/-- `Player.spend`: pay `c` if affordable, else change nothing;
returns the Python boolean. -/
def Player.spend (p : Player) (c : Bank) : Bool × Player :=
  if p.has c then (true, { p with resources := p.resources.sub c }) else (false, p)

/-- `Player.addport`: add the port if not already held (set union). -/
def Player.addport (p : Player) (port : Option PortKind) : Player :=
  if port ∈ p.ports then p else { p with ports := p.ports ++ [port] }

/-- The scanning loop of `Player.take_random`: walk the dict in insertion
order; when the running draw no longer exceeds the count, spend and return a
one-unit receipt.  Falling off the end is the `print("take_random error");
return False` path, reported as `none`. -/
def takeScan (p : Player) (chosen : Int) : List Resource → Option Bank × Player
  | [] => (none, p)
  | r :: rs =>
    if p.resources.get r < chosen then takeScan p (chosen - p.resources.get r) rs
    else
      let receipt := Bank.zero.setR r 1
      (some receipt, (p.spend receipt).2)

/-- `Player.take_random`, with the `random.randint(1, total)` draw passed in
as `chosen`.  An empty hand makes `randint` itself raise. -/
def Player.take_random (p : Player) (chosen : Int) :
    Except PyErr (Option Bank × Player) :=
  if p.resources.total < 1 then .error .randintError
  else .ok (takeScan p chosen resourceOrder)

/-- `Player.get_devcard`. -/
def Player.get_devcard (p : Player) (card : Card) (turn : Int) : Player :=
  { p with facedown_devcards := p.facedown_devcards ++ [(card, turn)] }

/-- `Player.can_flip_devcard` with `v=True`, as the index it returns.
The Python loops are equivalent to: if any face-up card was used this turn
(`used[1] >= turn_number`) the answer is `False`; otherwise the first
face-down copy of `card` acquired strictly before this turn is returned. -/
def Player.can_flip_idx (p : Player) (card : Card) (turn : Int) : Option Nat :=
  if p.faceup_devcards.any (fun u => decide (turn ≤ u.2)) then none
  else
    (p.facedown_devcards.enum.find?
      (fun x => decide (x.2.1 = card) && decide (x.2.2 < turn))).map (·.1)

/-- `Player.can_flip_devcard` with `v=False`. -/
def Player.can_flip_devcard (p : Player) (card : Card) (turn : Int) : Bool :=
  (p.can_flip_idx card turn).isSome

/-- `Player.flip_devcard`. -/
def Player.flip_devcard (p : Player) (card : Card) (turn : Int) : Bool × Player :=
  match p.can_flip_idx card turn with
  | some i =>
    (true,
      { p with facedown_devcards := p.facedown_devcards.eraseIdx i,
               faceup_devcards := p.faceup_devcards ++ [(card, turn)] })
  | none => (false, p)

/-- `Tile` from `board.py`; `resource = none` is the Desert. -/
structure Tile where
  resource : Option Resource
  number : Int
  robber : Bool
deriving DecidableEq

/-- `Tile.__init__` (the Desert starts robbed). -/
def Tile.init (r : Option Resource) (n : Int) : Tile :=
  { resource := r, number := n, robber := r = none }

/-- `Tile.produce`. -/
def Tile.produce (t : Tile) (roll : Int) : Bool :=
  decide (t.number = roll) && !t.robber && !(t.resource = none : Bool)

/-- `Tile.clearrobber`. -/
def Tile.clearrobber (t : Tile) : Tile := { t with robber := false }

/-- `Tile.rob`. -/
def Tile.robT (t : Tile) : Tile := { t with robber := true }

/-- `Tile.give`: a receipt holding `count` of the tile's resource.  For the
Desert the Python dict gains a junk `"Desert"` key which `Player.get`
(iterating only the five real keys) ignores, so the credit is zero. -/
def Tile.give (t : Tile) (count : Int) : Bank :=
  match t.resource with
  | some r => Bank.zero.setR r count
  | none => Bank.zero

/-- `Board` from `board.py`.  The two class-level incidence DataFrames
(`road_adjacency`, `tile_adjacency`) are fields here, since they are raw
topology data loaded from external CSVs (spec §6).  `won_by` stands in for
the external `won` callback of the manager (see `Board.won` below). -/
structure Board where
  road_adjacency : List (List Bool)
  tile_adjacency : List (List Bool)
  tiles : List Tile
  border_map : List (Option PortKind)
  roads : List Nat
  settlements : List Nat
  cities : List Nat
  devdeck : List Card
  players : List Player
  last_turn : Int
  turn_number : Int
  won_by : Option Nat
deriving DecidableEq

/-- Shape invariant of a constructed board (`__init__` builds the arrays at
these sizes; the DataFrames are 72×54 and 19×54 by the comments in
`board.py` and the spec's data model). -/
def Board.WF (b : Board) : Prop :=
  b.road_adjacency.length = 72 ∧ (∀ row ∈ b.road_adjacency, row.length = 54) ∧
  b.tile_adjacency.length = 19 ∧ (∀ row ∈ b.tile_adjacency, row.length = 54) ∧
  b.roads.length = 72 ∧ b.settlements.length = 54 ∧ b.cities.length = 54 ∧
  b.tiles.length = 19 ∧ b.border_map.length = 54

instance (b : Board) : Decidable b.WF := by
  unfold Board.WF; infer_instance

/-- `df.iloc[i, :]` — positional row access, `IndexError` out of range. -/
def ilocRow (m : List (List Bool)) (i : Nat) : Except PyErr (List Bool) :=
  match m.get? i with
  | some row => .ok row
  | none => .error .indexError

/-- Row-by-row worker for `ilocCol`. -/
def colLoop (j : Nat) : List (List Bool) → Except PyErr (List Bool)
  | [] => .ok []
  | row :: rest =>
    match row.get? j with
    | none => .error .indexError
    | some x =>
      match colLoop j rest with
      | .ok xs => .ok (x :: xs)
      | .error e => .error e

/-- `df.iloc[:, j]` — positional column access, `IndexError` out of range. -/
def ilocCol (m : List (List Bool)) (j : Nat) : Except PyErr (List Bool) :=
  colLoop j m

/-- numpy elementwise product of two integer vectors; arrays of different
lengths cannot be broadcast and raise. -/
def npMul (a c : List Int) : Except PyErr (List Int) :=
  if a.length = c.length then .ok (List.zipWith (· * ·) a c)
  else .error .valueError

/-- numpy elementwise sum, same broadcast rule. -/
def npAdd (a c : List Int) : Except PyErr (List Int) :=
  if a.length = c.length then .ok (List.zipWith (· + ·) a c)
  else .error .valueError

/-- `Board.r2s`: junctions bounding road `location` (a row of
`road_adjacency`). -/
def Board.r2s (b : Board) (location : Nat) : Except PyErr (List Bool) :=
  ilocRow b.road_adjacency location

/-- `Board.s2r`: roads touching junction `location` (a column of
`road_adjacency`). -/
def Board.s2r (b : Board) (location : Nat) : Except PyErr (List Bool) :=
  ilocCol b.road_adjacency location

/-- `Board.r2r`: roads sharing a junction with road `location`
(`np.any(road_adjacency.loc[:, s], 1)` with the road itself cleared). -/
def Board.r2r (b : Board) (location : Nat) : Except PyErr (List Bool) := do
  let s ← b.r2s location
  let r := b.road_adjacency.map fun row => (List.zipWith (· && ·) s row).any id
  pure (r.set location false)

/-- OR of the selected rows, column by column (`np.any(rows, 0)` over a
54-wide selection; an empty selection gives the all-false vector). -/
def orRows (rows : List (List Bool)) : List Bool :=
  rows.foldl (fun acc row => List.zipWith (· || ·) acc row)
    (List.replicate 54 false)

/-- `Board.s2s`: junctions one road away from junction `location`
(`np.any(road_adjacency.loc[r, :], 0)` with the junction itself cleared). -/
def Board.s2s (b : Board) (location : Nat) : Except PyErr (List Bool) := do
  let r ← b.s2r location
  let sel := ((List.zip r b.road_adjacency).filter (·.1)).map (·.2)
  pure ((orRows sel).set location false)

/-- `Board.s2t`: tiles covering junction `location` (a column of
`tile_adjacency`). -/
def Board.s2t (b : Board) (location : Nat) : Except PyErr (List Bool) :=
  ilocCol b.tile_adjacency location

/-- `Board.t2s`: junctions covered by tile `location` (a row of
`tile_adjacency`). -/
def Board.t2s (b : Board) (location : Nat) : Except PyErr (List Bool) :=
  ilocRow b.tile_adjacency location

/-- `sum(arr[mask] == player)`: how many mask-selected entries equal
`player`. -/
def maskCountEq (arr : List Nat) (mask : List Bool) (player : Nat) : Nat :=
  ((List.zip arr mask).filter fun x => x.2 && decide (x.1 = player)).length

/-- `arr[mask]`: the mask-selected entries. -/
def maskSelect (arr : List Nat) (mask : List Bool) : List Nat :=
  ((List.zip arr mask).filter (·.2)).map (·.1)

/-- `sum((settlements + cities) * blocking_locations)` from
`build_settlement` (all operands are 54-long under `Board.WF`). -/
def blockSum (s c : List Nat) (mask : List Bool) : Nat :=
  ((List.zip (List.zipWith (· + ·) s c) mask).map
    fun x => if x.2 then x.1 else 0).sum

/-- Replace player `i` (no-op when out of range; every call site has already
performed an index-checked access on `players[i]`). -/
def Board.setPlayer (b : Board) (i : Nat) (pl : Player) : Board :=
  { b with players := b.players.set i pl }

/-- `Player.addvp`, lifted to the board so the win callback can be recorded.
`self.board.won(self)` resolves outside `board.py` (the manager module);
Modelled from the spec: reaching the winning threshold terminates the game
in that player's favor, recorded here as `won_by`. -/
def Board.addvp (b : Board) (i : Nat) : Board :=
  match b.players.get? i with
  | none => b
  | some pl =>
    let pl' := { pl with victory_points := pl.victory_points + 1 }
    let b' := b.setPlayer i pl'
    if pl'.winvp ≤ pl'.victory_points then { b' with won_by := some i } else b'

/-- `Board.costs["Road"]`. -/
def costRoad : Bank := ⟨1, 1, 0, 0, 0⟩

/-- `Board.costs["Settlement"]`. -/
def costSettlement : Bank := ⟨1, 1, 1, 0, 1⟩

/-- `Board.costs["City"]`. -/
def costCity : Bank := ⟨0, 0, 2, 3, 0⟩

/-- `Board.costs["Development Card"]`. -/
def costDevcard : Bank := ⟨0, 0, 1, 1, 1⟩

/-- Crawler modes (`mode="distance"` / `mode="ends"`; no other value is ever
passed, so the Python `return False` fallback for unknown modes is dead). -/
inductive Mode
  | distance | ends
deriving DecidableEq

/-- What a crawler call can produce: an int (distance mode), a numpy vector
(ends mode leaf), never the `False` fallback. -/
inductive CrawlVal
  | num (n : Int)
  | vec (v : List Int)
deriving DecidableEq

/-- The `options` accumulation loop of the crawler:
`for i, joint in enumerate(joints):
   options += self.roads * Board.road_adjacency.iloc[joint, :] == player`.
`joint` is a numpy bool used as a positional row index (row 0 or 1 under the
lenient bool-as-int reading; pandas in fact already rejects the non-integer
`.iloc` key), and the product multiplies the 72-long roads array with a
54-long junction row: numpy raises on the first iteration. -/
def optionsLoop (b : Board) (player : Nat) :
    List Int → List Bool → Except PyErr (List Int)
  | acc, [] => .ok acc
  | acc, joint :: rest => do
    let row ← ilocRow b.road_adjacency (if joint then 1 else 0)
    let prod ← npMul (b.roads.map Int.ofNat)
      (row.map fun x => if x then (1 : Int) else 0)
    let acc1 ← npAdd acc
      (prod.map fun x => if x = Int.ofNat player then (1 : Int) else 0)
    optionsLoop b player acc1 rest

/-- The recursive `crawler` of `Board.check_road_length`, fuelled.  `used`
is modelled as an integer vector (Python's initial call actually passes a
one-element list wrapping a Series, and the recursive calls `used + here`;
only `1 - used` ever reads it, downstream of the raise).  Every call raises
inside `optionsLoop` (see its docstring). -/
def Board.crawler (b : Board) (player : Nat) :
    Nat → List Int → Nat → Mode → Except PyErr CrawlVal
  | 0, _, _, _ => .error .recursionError
  | fuel + 1, used, location, mode => do
    -- `joints = Board.road_adjacency.iloc[:, location]` (a 72-long column;
    -- `location` here is a road id misused as a junction column index)
    let joints ← ilocCol b.road_adjacency location
    -- `if sum(joints) != 2: print(...)` — diagnostic print only
    let options ← optionsLoop b player (List.replicate 72 (0 : Int)) joints
    -- `options = options*(1-used)`
    let options ← npMul options (used.map fun u => 1 - u)
    let here : List Int := List.replicate 72 0
    if 0 < options.sum then do
      -- `for i, option in enumerate(options): if option == 1: ...`
      let idxs := (options.enum.filter fun x => decide (x.2 = 1)).map (·.1)
      let paths ← idxs.mapM fun i => do
        -- `here = np.zeros(72); here[location] = 1; crawler(used + here, i)`
        -- (the recursive call falls back to the default mode="distance")
        let used1 ← npAdd used ((List.replicate 72 (0 : Int)).set location 1)
        b.crawler player fuel used1 i .distance
      let nums ← paths.mapM fun p =>
        match p with
        | .num n => Except.ok n
        | _ => Except.error PyErr.typeError
      match mode with
      | .distance =>
        match nums.max? with
        | some m => pure (.num (m + 1))     -- `return max(paths) + 1`
        | none => .error .valueError        -- `max` of an empty list raises
      | .ends => pure (.num nums.sum)       -- `return np.sum(paths, 0)`
    else
      match mode with
      | .distance => pure (.num 1)
      | .ends => pure (.vec here)

/-- The endpoint-clearing loop of `check_road_length`:
`for i, h in enumerate(right_points): if h == 1: right_points[h] = 0`.
The subscript is `h` (the boolean value, i.e. position 1), not `i` — the
loop reads the evolving series, exactly as the Python does. -/
def mangleLoop (rp : List Bool) : List Bool :=
  (List.range rp.length).foldl
    (fun s i => if s.getD i false then s.set 1 false else s) rp

/-- The bonus block at the end of `check_road_length` (lines 379–388).  The
holder-reassignment loop iterates over all players including the builder,
whose `road_length` was just raised to `longest_road`, so the `break` always
fires and the for-else never runs (its first statement,
`player.longest_road = False` on an int, would raise). -/
def Board.longest_road_award (b : Board) (player : Nat) (longest : Int) :
    Except PyErr Board :=
  if 5 ≤ longest then
    match b.players.get? player with
    | none => .error .indexError
    | some pl =>
      if pl.road_length < longest then
        let players1 := b.players.set player { pl with road_length := longest }
        if players1.any fun q => decide (longest ≤ q.road_length) then
          .ok { b with players := players1 }
        else .error .typeError   -- unreachable for-else body
      else .ok b
  else .ok b

/-- The endpoint scan of `check_road_length`:
`for i, endpoint in enumerate(left_endpoints): if endpoint == 1:
 longest_road = max(longest_road, crawler([], i, mode="distance"))`. -/
def longestFold (b : Board) (player : Nat) (v : List Int) : Except PyErr Int :=
  v.enum.foldlM
    (fun (best : Int) (x : Nat × Int) =>
      if x.2 = 1 then do
        match (← b.crawler player 73 [] x.1 .distance) with
        | .num n => pure (max best n)
        | _ => Except.error PyErr.typeError
      else pure best)
    (0 : Int)

/-- `Board.check_road_length`.  `right_points` is
`road_adjacency.iloc[:, location]` — a junction column indexed by a road id
(an `IndexError` outright for `location ≥ 54`); for `location < 54` the
first `crawler` call raises inside its options accumulation, so the function
never returns normally (see `check_road_length_crashes`). -/
def Board.check_road_length (b : Board) (player : Nat) (location : Nat) :
    Outcome × Board :=
  match ilocCol b.road_adjacency location with
  | .error e => (.crash e, b)
  | .ok rp =>
    let used0 := (mangleLoop rp).map fun h => if h then (1 : Int) else 0
    match b.crawler player 73 used0 location .ends with
    | .error e => (.crash e, b)
    | .ok (.num _) => (.crash .typeError, b)  -- `enumerate` over an int
    | .ok (.vec v) =>
      match longestFold b player v with
      | .error e => (.crash e, b)
      | .ok longest =>
        match b.longest_road_award player longest with
        | .error e => (.crash e, b)
        | .ok b' => (.success, b')

/-- `Board.build_road`.  The first guard conflates "edge occupied" and "no
road piece left" into one `print("You're Blocked!")`.  On the all-checks-pass
path the edge and piece pool are mutated and then `check_road_length` runs —
whose raise escapes with the mutation in place. -/
def Board.build_road (b : Board) (player : Nat) (location : Nat) (free : Bool) :
    Outcome × Board :=
  match b.roads.get? location with
  | none => (.crash .indexError, b)
  | some owner =>
    if owner = 0 then
      match b.players.get? player with
      | none => (.crash .indexError, b)
      | some pl =>
        if 0 < pl.roads then
          match b.r2s location, b.r2r location with
          | .ok nextS, .ok nextR =>
            let has_settlement := maskCountEq b.settlements nextS player
            let has_city := maskCountEq b.cities nextS player
            let has_road := maskCountEq b.roads nextR player
            if 0 < has_settlement + has_road + has_city then
              -- `if free or self.players[player].spend(Board.costs["Road"]):`
              let paid := if free then (true, pl) else pl.spend costRoad
              if paid.1 then
                let b1 :=
                  { b.setPlayer player { paid.2 with roads := paid.2.roads - 1 }
                    with roads := b.roads.set location player }
                match b1.check_road_length player location with
                | (.crash e, b2) => (.crash e, b2)
                | (_, b2) => (.success, b2)
              else (.failure .noResources, b)
            else (.failure .notConnected, b)
          | .error e, _ => (.crash e, b)
          | .ok _, .error e => (.crash e, b)
        else (.failure .alreadyOccupied, b)
    else (.failure .alreadyOccupied, b)

/-- Worker for `creditTiles`, carrying the running tile index. -/
def creditLoop (player : Nat) : Board → Nat → List Bool → Option PyErr × Board
  | st, _, [] => (none, st)
  | st, i, t :: rest =>
    if t then
      match st.players.get? player with
      | none => (some .indexError, st)
      | some pl =>
        match st.tiles.get? i with
        | none => (some .indexError, st)
        | some tile =>
          creditLoop player (st.setPlayer player (pl.get (tile.give 1))) (i + 1)
            rest
    else creditLoop player st (i + 1) rest

/-- The starting-resource loop of `build_settlement`:
`for i, t in enumerate(Board.s2t(location)): if t:
 self.players[player].get(self.tiles[i].give())`. -/
def creditTiles (b : Board) (player : Nat) (tmask : List Bool) :
    Option PyErr × Board :=
  creditLoop player b 0 tmask

/-- `Board.build_settlement`.  The blocking check looks only at the
junctions one road away (`s2s` clears the target junction itself); a player
already owning a road at the junction is sent down the paid branch even when
`initial` is true. -/
def Board.build_settlement (b : Board) (player location : Nat)
    (initial getnear : Bool) : Outcome × Board :=
  match b.s2s location with
  | .error e => (.crash e, b)
  | .ok blocking =>
    if blockSum b.settlements b.cities blocking = 0 then
      match b.s2r location with
      | .error e => (.crash e, b)
      | .ok mask =>
        if 0 < maskCountEq b.roads mask player then
          match b.players.get? player with
          | none => (.crash .indexError, b)
          | some pl =>
            match pl.spend costSettlement with
            | (true, pl1) =>
              let b1 := { b.setPlayer player pl1 with
                          settlements := b.settlements.set location player }
              let b2 := b1.addvp player
              match b2.players.get? player with
              | none => (.crash .indexError, b2)
              | some pl2 =>
                match b2.border_map.get? location with
                | none => (.crash .indexError, b2)
                | some port =>
                  (.success, b2.setPlayer player
                    (({ pl2 with settlements := pl2.settlements - 1 }).addport
                      port))
            | (false, _) => (.failure .noResources, b)
        else if initial then
          -- the junction array is written before the player is touched
          let b1 := { b with settlements := b.settlements.set location player }
          match b1.players.get? player with
          | none => (.crash .indexError, b1)
          | some pl =>
            let b2 := (b1.setPlayer player
              { pl with settlements := pl.settlements - 1 }).addvp player
            match b2.players.get? player with
            | none => (.crash .indexError, b2)
            | some pl2 =>
              match b2.border_map.get? location with
              | none => (.crash .indexError, b2)
              | some port =>
                let b3 := b2.setPlayer player (pl2.addport port)
                if getnear then
                  match b3.s2t location with
                  | .error e => (.crash e, b3)
                  | .ok tmask =>
                    match creditTiles b3 player tmask with
                    | (some e, b4) => (.crash e, b4)
                    | (none, b4) => (.success, b4)
                else (.success, b3)
        else (.failure .noRoad, b)
    else (.failure .blocked, b)

/-- `Board.build_city`. -/
def Board.build_city (b : Board) (player location : Nat) : Outcome × Board :=
  match b.settlements.get? location with
  | none => (.crash .indexError, b)
  | some owner =>
    if owner = player then
      match b.players.get? player with
      | none => (.crash .indexError, b)
      | some pl =>
        if 0 < pl.cities then
          match pl.spend costCity with
          | (true, pl1) =>
            let pl2 := { pl1 with cities := pl1.cities - 1,
                                  settlements := pl1.settlements + 1 }
            (.success, { b.setPlayer player pl2 with
                         settlements := b.settlements.set location 0,
                         cities := b.cities.set location player })
          | (false, _) => (.failure .noResources, b)
        else (.failure .noSettlementThere, b)
    else (.failure .noSettlementThere, b)

/-- `Board.buy_devcard`.  After a successful payment the deck is popped and
then the two-argument `Player.get_devcard` is called with a single argument:
`TypeError`, with the resources spent and the popped card lost. -/
def Board.buy_devcard (b : Board) (player : Nat) : Outcome × Board :=
  if 0 < b.devdeck.length then
    match b.players.get? player with
    | none => (.crash .indexError, b)
    | some pl =>
      match pl.spend costDevcard with
      | (true, pl1) =>
        (.crash .typeError,
          { b.setPlayer player pl1 with devdeck := b.devdeck.dropLast })
      | (false, _) => (.failure .noResources, b)
  else (.failure .emptyDeck, b)

/-- One producing tile's payout loop in `Board.roll`:
credit `r` to the owner of every nonzero mask-selected array entry. -/
def creditOwners (b : Board) (owners : List Nat) (r : Bank) :
    Option PyErr × Board :=
  owners.foldl
    (fun (acc : Option PyErr × Board) o =>
      match acc with
      | (some e, st) => (some e, st)
      | (none, st) =>
        if o ≠ 0 then
          match st.players.get? o with
          | some pl => (none, st.setPlayer o (pl.get r))
          | none => (some .indexError, st)
        else (none, st))
    (none, b)

/-- The production loop of `Board.roll` for a non-seven result. -/
def rollTiles (b : Board) (result : Int) : Outcome × Board :=
  let z := b.tiles.enum.foldl
    (fun (acc : Option PyErr × Board) x =>
      match acc with
      | (some e, st) => (some e, st)
      | (none, st) =>
        if x.2.produce result then
          match st.t2s x.1 with
          | .error e => (some e, st)
          | .ok spots =>
            match creditOwners st (maskSelect st.settlements spots) (x.2.give 1) with
            | (some e, st1) => (some e, st1)
            | (none, st1) =>
              creditOwners st1 (maskSelect st1.cities spots) (x.2.give 2)
        else (none, st))
    (none, b)
  match z with
  | (some e, st) => (.crash e, st)
  | (none, st) => (.success, st)

/-- `Board.roll`, with the two dice passed in (`fix` overrides their sum).
The returned int (`result` or 7) is not needed by any claim; both normal
returns are `success`. -/
def Board.roll (b : Board) (fix : Option Int) (d1 d2 : Int) : Outcome × Board :=
  let b0 :=
    if b.last_turn = Int.ofNat b.players.length
    then { b with last_turn := 1, turn_number := b.turn_number + 1 }
    else { b with last_turn := b.last_turn + 1 }
  let result := match fix with | some f => f | none => d1 + d2
  if result ≠ 7 then rollTiles b0 result else (.success, b0)

/-- `Board.rob`, with the `take_random` draw passed in. -/
def Board.rob (b : Board) (player1 player2 location : Nat) (draw : Int) :
    Outcome × Board :=
  match b.tiles.get? location with
  | none => (.crash .indexError, b)
  | some t =>
    if t.robber = false then
      match b.t2s location with
      | .error e => (.crash e, b)
      | .ok spots =>
        if 0 < maskCountEq b.settlements spots player2 ∨
            0 < maskCountEq b.cities spots player2 then
          -- robber moved before the card transfer is attempted
          let b1 := { b with
            tiles := (b.tiles.map Tile.clearrobber).set location t.clearrobber.robT }
          match b1.players.get? player1 with
          | none => (.crash .indexError, b1)
          | some _ =>
            match b1.players.get? player2 with
            | none => (.crash .indexError, b1)
            | some v =>
              match v.take_random draw with
              | .error e => (.crash e, b1)
              | .ok (none, v1) =>
                -- `take_random` returned `False`; `get(False)` raises
                (.crash .typeError, b1.setPlayer player2 v1)
              | .ok (some receipt, v1) =>
                let b2 := b1.setPlayer player2 v1
                match b2.players.get? player1 with
                | none => (.crash .indexError, b2)
                | some a => (.success, b2.setPlayer player1 (a.get receipt))
        else (.failure .targetNotAdjacent, b)
    else (.failure .robberMustMove, b)

/-- `Board.knight` (`special` unpacked into its two components).  Unlike the
longest-road block, the holder scan here does skip the activating player. -/
def Board.knight (b : Board) (player special1 special2 : Nat) (draw : Int) :
    Outcome × Board :=
  match b.rob player special1 special2 draw with
  | (.success, b1) =>
    match b1.players.get? player with
    | none => (.crash .indexError, b1)
    | some pl =>
      let pl1 := { pl with knight_count := pl.knight_count + 1 }
      let b2 := b1.setPlayer player pl1
      if 2 < pl1.knight_count then
        if b2.players.enum.any (fun x =>
            decide (x.1 ≠ player) && decide (pl1.knight_count ≤ x.2.knight_count))
        then (.success, b2)
        else
          let b3 := { b2 with players := b2.players.map fun (q : Player) =>
            if q.largest_army
            then { q with largest_army := false,
                          victory_points := q.victory_points - 2 }
            else q }
          match b3.players.get? player with
          | none => (.crash .indexError, b3)
          | some plx =>
            (.success,
              ((b3.setPlayer player
                { plx with largest_army := true }).addvp player).addvp player)
      else (.success, b2)
  | (o, b1) => (o, b1)

/-- `Board.monopoly`.  `some r` models a string naming a resource (the
`type(special) == str and special in bank_statement.keys()` guard); with a
valid name the loop `for i, player in enumerate(self.players)` rebinds
`player` to each `Player` object, and the first iteration's
`self.players[player]` indexes the list with that object: `TypeError`,
before any resources move. -/
def Board.monopoly (b : Board) (_player : Nat) (special : Option Resource) :
    Outcome × Board :=
  match special with
  | some _ =>
    match b.players with
    | [] => (.success, b)       -- empty loop falls through to `return True`
    | _ :: _ => (.crash .typeError, b)
  | none => (.failure .badMonopolyPayload, b)

/-- `Board.year_of_plenty` (`some bk` models a five-key dict). -/
def Board.year_of_plenty (b : Board) (player : Nat) (special : Option Bank) :
    Outcome × Board :=
  match special with
  | some bk =>
    if bk.total = 2 then
      match b.players.get? player with
      | none => (.crash .indexError, b)
      | some pl => (.success, b.setPlayer player (pl.get bk))
    else (.failure .notTwoResources, b)
  | none => (.failure .badReceipt, b)

/-- `Board.road_building` (`some (l1, l2)` models a two-int payload).  The
single diagnostic `print("That isn't 2 locations!")` is reached on every
returning failure path. -/
def Board.road_building (b : Board) (player : Nat)
    (special : Option (Nat × Nat)) : Outcome × Board :=
  match special with
  | some (l1, l2) =>
    match b.build_road player l1 true with
    | (.success, b1) =>
      match b1.build_road player l2 true with
      | (.success, b2) => (.success, b2)
      | (.failure _, b2) => (.failure .badRoadBuildingPayload, b2)
      | (.crash e, b2) => (.crash e, b2)
    | (.failure _, b1) => (.failure .badRoadBuildingPayload, b1)
    | (.crash e, b1) => (.crash e, b1)
  | none => (.failure .badRoadBuildingPayload, b)

/-- The polymorphic `special` argument of `activate_devcard`: a two-int
sequence, a string (naming a resource or not), a five-key dict, or anything
else. -/
inductive Special
  | ints (a c : Nat)
  | strRes (r : Option Resource)
  | dict5 (bk : Bank)
  | otherVal
deriving DecidableEq

/-- The `flip_devcard` + `return True` tail shared by the successful
activation branches. -/
def flipAnd (b : Board) (player : Nat) (card : Card) (turn : Int) :
    Outcome × Board :=
  match b.players.get? player with
  | none => (.crash .indexError, b)
  | some pl => (.success, b.setPlayer player (pl.flip_devcard card turn).2)

/-- `Board.activate_devcard`.  Eligibility is checked against
`self.turn_number` (not the `turn_number` argument, which is only passed to
`flip_devcard`).  Only a successful effect flips the card; the Road Building
branch alone returns `False` early instead of falling through to the final
"You can't use that dev card!" print. -/
def Board.activate_devcard (b : Board) (player : Nat) (card : Card)
    (turn : Int) (sp : Special) (draw : Int) : Outcome × Board :=
  match b.players.get? player with
  | none => (.crash .indexError, b)
  | some pl =>
    if pl.can_flip_devcard card b.turn_number then
      match card with
      | .knight =>
        match sp with
        | .ints a c =>
          match b.knight player a c draw with
          | (.success, b1) => flipAnd b1 player card turn
          | (.failure _, b1) => (.failure .cantUseCard, b1)
          | (.crash e, b1) => (.crash e, b1)
        | _ => (.crash .typeError, b)   -- `special[0]` on a non-sequence
      | .victory => flipAnd (b.addvp player) player card turn
      | .monopolyCard =>
        match b.monopoly player
            (match sp with | .strRes (some r) => some r | _ => none) with
        | (.success, b1) => flipAnd b1 player card turn
        | (.failure _, b1) => (.failure .cantUseCard, b1)
        | (.crash e, b1) => (.crash e, b1)
      | .roadBuildingCard =>
        match b.road_building player
            (match sp with | .ints a c => some (a, c) | _ => none) with
        | (.success, b1) => flipAnd b1 player card turn
        | (.failure k, b1) => (.failure k, b1)   -- bare `return False`
        | (.crash e, b1) => (.crash e, b1)
      | .yearOfPlentyCard =>
        match b.year_of_plenty player
            (match sp with | .dict5 bk => some bk | _ => none) with
        | (.success, b1) => flipAnd b1 player card turn
        | (.failure _, b1) => (.failure .cantUseCard, b1)
        | (.crash e, b1) => (.crash e, b1)
      | .unknown => (.failure .notValidCard, b)
    else (.failure .cantUseCard, b)

/-- One externally issuable board command, with every random draw made an
explicit argument.  This is the full mutating surface of `Board`. -/
inductive GameOp
  | buildRoadOp (p loc : Nat) (free : Bool)
  | buildSettlementOp (p loc : Nat) (initial getnear : Bool)
  | buildCityOp (p loc : Nat)
  | buyDevcardOp (p : Nat)
  | rollOp (fix : Option Int) (d1 d2 : Int)
  | robOp (p1 p2 tile : Nat) (draw : Int)
  | knightOp (p s1 s2 : Nat) (draw : Int)
  | monopolyOp (p : Nat) (sp : Option Resource)
  | yearOfPlentyOp (p : Nat) (sp : Option Bank)
  | roadBuildingOp (p : Nat) (sp : Option (Nat × Nat))
  | activateOp (p : Nat) (card : Card) (turn : Int) (sp : Special) (draw : Int)

/-- Apply one command to the board, keeping whatever state the call left
behind (also on failure or crash, exactly as the Python objects would). -/
def stepOp (b : Board) : GameOp → Board
  | .buildRoadOp p loc free => (b.build_road p loc free).2
  | .buildSettlementOp p loc i g => (b.build_settlement p loc i g).2
  | .buildCityOp p loc => (b.build_city p loc).2
  | .buyDevcardOp p => (b.buy_devcard p).2
  | .rollOp fix d1 d2 => (b.roll fix d1 d2).2
  | .robOp p1 p2 t draw => (b.rob p1 p2 t draw).2
  | .knightOp p s1 s2 draw => (b.knight p s1 s2 draw).2
  | .monopolyOp p sp => (b.monopoly p sp).2
  | .yearOfPlentyOp p sp => (b.year_of_plenty p sp).2
  | .roadBuildingOp p sp => (b.road_building p sp).2
  | .activateOp p card turn sp draw => (b.activate_devcard p card turn sp draw).2

/-- Run a command sequence. -/
def Board.run (b : Board) (ops : List GameOp) : Board := ops.foldl stepOp b

/-- A command is issued on behalf of a real player: the acting player id of
the two commands that write the settlement/city arrays is nonzero.  (Id 0 is
the "unowned" sentinel; the extra `players[0]` entry exists only to make the
list start at 1.) -/
def GameOp.realActor : GameOp → Prop
  | .buildSettlementOp p _ _ _ => 1 ≤ p
  | .buildCityOp p _ => 1 ≤ p
  | _ => True

/-! ### Concrete boards used by witnesses and counterexamples

The incidence matrices are external inputs of the engine (spec §6; the CSV
files are not part of the source), so concrete evaluations use small
explicitly chosen topologies at the fixed 72×54 / 19×54 shape.  `pathRadj`
is a simple chain: road `r` joins junctions `r` and `r+1`. -/

/-- Build a board at the constructed shape from an incidence recipe. -/
def mkBoard (radj tadj : Nat → Nat → Bool) (tiles : List Tile)
    (players : List Player) : Board :=
  { road_adjacency := (List.range 72).map fun r => (List.range 54).map (radj r),
    tile_adjacency := (List.range 19).map fun t => (List.range 54).map (tadj t),
    tiles := tiles, border_map := List.replicate 54 none,
    roads := List.replicate 72 0, settlements := List.replicate 54 0,
    cities := List.replicate 54 0, devdeck := [], players := players,
    last_turn := 0, turn_number := 0, won_by := none }

/-- Chain topology: road `r` joins junctions `r` and `r+1`. -/
def pathRadj (r j : Nat) : Bool := decide (j = r ∨ j = r + 1)

/-- Toy tile cover: tiles 0 and 1 each cover junctions 0 and 4. -/
def twoTileTadj (t j : Nat) : Bool := decide (t ≤ 1 ∧ (j = 0 ∨ j = 4))

/-- 19 wood tiles numbered 5, with one robbed desert at the end. -/
def toyTiles : List Tile :=
  List.replicate 18 (Tile.init (some .wood) 5) ++ [Tile.init none 0]

/-- Count, over parallel cover-mask and tile lists, of the covered tiles
whose resource is `r`. -/
def zipCredit : List Bool → List Tile → Resource → Int
  | [], _, _ => 0
  | _ :: _, [], _ => 0
  | m :: ms, t :: ts, r =>
    (if m ∧ t.resource = some r then 1 else 0) + zipCredit ms ts r

/-- Per-resource count of what the `getnear` loop credits: the number of
tiles covering junction `v` whose resource is `r` (the Desert, with no
resource, credits nothing). -/
def tileCredit (b : Board) (v : Nat) (r : Resource) : Int :=
  zipCredit (b.tile_adjacency.map fun row => row.getD v false) b.tiles r

/-- A fresh player (default 10-point threshold). -/
def poorP : Player := Player.init 10

/-- A player with five of everything. -/
def richP : Player := { Player.init 10 with resources := ⟨5, 5, 5, 5, 5⟩ }

/-- A player with the resource hand blanked: two players share a `core`
exactly when they agree on every non-resource field (used to state that an
operation moves cards/dice resources only). -/
def Player.core (q : Player) : Player := { q with resources := Bank.zero }

/-- Two-player chain-topology board with empty arrays (witness board). -/
def WB : Board := mkBoard pathRadj twoTileTadj toyTiles [poorP, poorP, poorP]

/-- Witness board for the road-build bug: player 1 has a settlement on
junction 2, so the free build of edge 2 passes every precondition. -/
def C3B : Board :=
  { WB with settlements := (List.replicate 54 0).set 2 1 }

/-- Counterexample board for C6: player 1 owns the road at edge 2 (touching
junction 2) and has no resources. -/
def C6B : Board :=
  { WB with roads := (List.replicate 72 0).set 2 1 }

/-- Counterexample board for C7: both real players have two knight
activations banked, settlements on junctions 0 and 4 (covered by tiles 0
and 1), and player 2 holds a single Wood card to be stolen back and forth. -/
def C7B : Board :=
  { mkBoard pathRadj twoTileTadj toyTiles
      [poorP, { poorP with knight_count := 2 },
        { poorP with knight_count := 2, resources := ⟨1, 0, 0, 0, 0⟩ }] with
    settlements := ((List.replicate 54 0).set 0 1).set 4 2 }

/-- C7B after player 1's third knight (takes the bonus). -/
def C7B1 : Board := (C7B.knight 1 2 0 1).2

/-- C7B1 after player 2's third knight (ties at three). -/
def C7B2 : Board := (C7B1.knight 2 1 1 1).2

/-- Witness board for C8, the claim's own scenario: activator is player 1,
opponents hold 3 and 0 units of Wood. -/
def C8B : Board :=
  { WB with players := [poorP, poorP,
      { poorP with resources := ⟨3, 0, 0, 0, 0⟩ }, poorP] }

/-- Counterexample board for C9: player 1 has an aged Road Building card and
a settlement on junction 0, so the first free build (edge 0) passes its
checks while the card sits face-down. -/
def C9B : Board :=
  { WB with
    players := [poorP,
      { poorP with facedown_devcards := [(.roadBuildingCard, 0)] }, poorP],
    settlements := (List.replicate 54 0).set 0 1,
    turn_number := 1 }

/-- Witness board for C10: junction 10 already holds player 2's settlement
and city. -/
def C10B : Board :=
  { WB with settlements := (List.replicate 54 0).set 10 2,
            cities := (List.replicate 54 0).set 10 2 }

/-! ## Lemmas -/

theorem List.elem_le_sum_nat :
    ∀ (l : List Nat) (i x : Nat), l.get? i = some x → x ≤ l.sum := by
  intro l
  induction l with
  | nil => intro i x h; simp at h
  | cons a rest ih =>
    intro i x h
    cases i with
    | zero => simp at h; simp [h, List.sum_cons]
    | succ n =>
      simp only [List.get?_cons_succ] at h
      calc x ≤ rest.sum := ih n x h
        _ ≤ a + rest.sum := Nat.le_add_left _ _
        _ = (a :: rest).sum := by simp

theorem foldl_preserve {α β : Type _} (P : β → Prop) (f : β → α → β)
    (hf : ∀ x a, P x → P (f x a)) :
    ∀ (l : List α) (b : β), P b → P (l.foldl f b) := by
  intro l
  induction l with
  | nil => intro b hb; simpa using hb
  | cons a rest ih => intro b hb; exact ih (f b a) (hf b a hb)

theorem colLoop_ok (j : Nat) :
    ∀ (m : List (List Bool)), (∀ row ∈ m, j < row.length) →
      colLoop j m = .ok (m.map fun row => row.getD j false) := by
  intro m
  induction m with
  | nil => intro _; rfl
  | cons row rest ih =>
    intro h
    have hj : j < row.length := h row (by simp)
    have hrest := ih fun r hr => h r (by simp [hr])
    cases hq : row.get? j with
    | none => rw [List.get?_eq_none] at hq; omega
    | some x =>
      have hgd : row.getD j false = x := by
        simp [List.getD_eq_getElem?_getD, ← List.get?_eq_getElem?, hq]
      rw [List.get?_eq_getElem?] at hq
      simp [colLoop, hq, hrest, hgd]

theorem colLoop_err (j : Nat) (row0 : List Bool) (rest : List (List Bool))
    (h : row0.length ≤ j) :
    colLoop j (row0 :: rest) = .error .indexError := by
  have h0 : row0.get? j = none := List.get?_eq_none.mpr h
  simp only [colLoop, h0]

theorem optionsLoop_err (b : Board) (player : Nat) (acc : List Int)
    (joint : Bool) (rest : List Bool)
    (h72 : b.roads.length = 72) (hadj : b.road_adjacency.length = 72)
    (hrows : ∀ row ∈ b.road_adjacency, row.length = 54) :
    optionsLoop b player acc (joint :: rest) = .error .valueError := by
  have hidx : (if joint then 1 else 0) < b.road_adjacency.length := by
    rw [hadj]; split <;> omega
  cases hrow : b.road_adjacency.get? (if joint then 1 else 0) with
  | none => rw [List.get?_eq_none] at hrow; omega
  | some row =>
    have h54 : row.length = 54 := hrows row (List.get?_mem hrow)
    rw [List.get?_eq_getElem?] at hrow
    simp [optionsLoop, ilocRow, hrow, npMul, h72, h54, Bind.bind, Except.bind]

theorem crawler_err (b : Board) (player fuel loc : Nat) (used : List Int)
    (mode : Mode)
    (h72 : b.roads.length = 72) (hadj : b.road_adjacency.length = 72)
    (hrows : ∀ row ∈ b.road_adjacency, row.length = 54) (hloc : loc < 54) :
    b.crawler player (fuel + 1) used loc mode = .error .valueError := by
  have hcol : ilocCol b.road_adjacency loc =
      .ok (b.road_adjacency.map fun row => row.getD loc false) :=
    colLoop_ok loc b.road_adjacency fun row hr => by rw [hrows row hr]; exact hloc
  have hmapne : (b.road_adjacency.map fun row => row.getD loc false) ≠ [] := by
    have hlen : (b.road_adjacency.map fun row => row.getD loc false).length = 72 := by
      simp [hadj]
    intro h; rw [h] at hlen; simp at hlen
  obtain ⟨j0, jrest, hj⟩ := List.exists_cons_of_ne_nil hmapne
  rw [hj] at hcol
  have hopts := optionsLoop_err b player (List.replicate 72 (0 : Int))
    j0 jrest h72 hadj hrows
  simp only [Board.crawler, hcol, hopts, Bind.bind, Except.bind]

/-- `check_road_length` never returns normally: for an out-of-range edge id
the misused junction-column access raises at once, and otherwise the first
crawler call raises in its options accumulation.  The board is returned
untouched (the function's own writes all sit below the raise). -/
theorem check_road_length_crashes (b : Board) (player loc : Nat)
    (hWF : b.WF) :
    ∃ e, b.check_road_length player loc = (.crash e, b) := by
  obtain ⟨hadj, hrows, _, _, h72, _, _, _, _⟩ := hWF
  by_cases hloc : loc < 54
  · refine ⟨.valueError, ?_⟩
    have hcol : ilocCol b.road_adjacency loc =
        .ok (b.road_adjacency.map fun row => row.getD loc false) :=
      colLoop_ok loc b.road_adjacency fun row hr => by
        rw [hrows row hr]; exact hloc
    have hcr : b.crawler player 73
        ((mangleLoop (b.road_adjacency.map fun row => row.getD loc false)).map
          fun h => if h then (1 : Int) else 0) loc .ends = .error .valueError :=
      crawler_err b player 72 loc _ .ends h72 hadj hrows hloc
    simp only [Board.check_road_length, hcol, hcr]
  · have hne : b.road_adjacency ≠ [] := by
      intro h; rw [h] at hadj; simp at hadj
    obtain ⟨r0, rrest, hcons⟩ := List.exists_cons_of_ne_nil hne
    refine ⟨.indexError, ?_⟩
    have herr : ilocCol b.road_adjacency loc = .error .indexError := by
      rw [hcons]
      exact colLoop_err loc r0 rrest
        (by rw [hrows r0 (by rw [hcons]; simp)]; omega)
    simp [Board.check_road_length, herr]

theorem WF_of_same_shape (b b' : Board) (hWF : b.WF)
    (h1 : b'.road_adjacency = b.road_adjacency)
    (h2 : b'.tile_adjacency = b.tile_adjacency)
    (h3 : b'.roads.length = b.roads.length)
    (h4 : b'.settlements.length = b.settlements.length)
    (h5 : b'.cities.length = b.cities.length)
    (h6 : b'.tiles.length = b.tiles.length)
    (h7 : b'.border_map.length = b.border_map.length) : b'.WF := by
  obtain ⟨w1, w2, w3, w4, w5, w6, w7, w8, w9⟩ := hWF
  exact ⟨h1 ▸ w1, h1 ▸ w2, h2 ▸ w3, h2 ▸ w4, h3 ▸ w5, h4 ▸ w6, h5 ▸ w7,
    h6 ▸ w8, h7 ▸ w9⟩

theorem List.set_of_get?_eq {α : Type _} :
    ∀ (l : List α) (i : Nat) (a : α), l.get? i = some a → l.set i a = l := by
  intro l
  induction l with
  | nil => intro i a h; simp at h
  | cons x rest ih =>
    intro i a h
    cases i with
    | zero => simp at h; simp [h]
    | succ n =>
      simp only [List.get?_cons_succ] at h
      simp [List.set, ih n a h]

/-- C1.  The longest-road search of `board.py` cannot compute anything: on
every well-formed board, for every player and every edge argument,
`check_road_length` raises (an `IndexError` for edge ids ≥ 54, which are
misused as junction-column indices, and otherwise a numpy broadcast
`ValueError` in the crawler's `options` accumulation) and so never returns a
length at all — contradicting the claim that it idempotently returns the
longest simple edge-path length (k for a chain of k, a+b for a Y). -/
theorem C1_road_length_search_always_crashes
    (b : Board) (player location : Nat) (hWF : b.WF) :
    ∃ e, b.check_road_length player location = (.crash e, b) :=
  check_road_length_crashes b player location hWF

set_option maxRecDepth 40000 in
theorem C1_road_length_search_always_crashes_witness :
    ∃ e, WB.check_road_length 1 0 = (.crash e, WB) :=
  C1_road_length_search_always_crashes WB 1 0 (by decide)

/-- C2.  The longest-road bonus block of `check_road_length` (lines
379–388) never moves the bonus: whenever `self.players[player]` exists it
returns normally with every player's `longest_road` flag exactly as before,
because the holder-scan loop runs over all players including the builder —
whose `road_length` was just raised to the new value — so the `break` always
fires and the for-else that would assign the bonus is dead.  (The block is
itself unreachable: the crawler above it always raises, see C1.)  This
contradicts the claim that the bonus is awarded when the new length is ≥ 5
and strictly exceeds every other player's best. -/
theorem C2_longest_road_bonus_never_awarded
    (b : Board) (player : Nat) (longest : Int) (pl : Player)
    (hpl : b.players.get? player = some pl) :
    ∃ b', b.longest_road_award player longest = .ok b' ∧
      b'.players.map (·.longest_road) = b.players.map (·.longest_road) := by
  unfold Board.longest_road_award
  by_cases h5 : 5 ≤ longest
  · rw [if_pos h5]
    simp only [hpl]
    by_cases hlt : pl.road_length < longest
    · rw [if_pos hlt]
      have hlen : player < b.players.length := by
        by_contra hc
        rw [List.get?_eq_none.mpr (by omega)] at hpl
        exact Option.noConfusion hpl
      have hget : (b.players.set player { pl with road_length := longest }).get? player
          = some { pl with road_length := longest } := by
        rw [List.get?_eq_getElem?, List.getElem?_set_self]
        exact hlen
      have hany : (b.players.set player { pl with road_length := longest }).any
          (fun q => decide (longest ≤ q.road_length)) = true := by
        refine List.any_eq_true.mpr ⟨{ pl with road_length := longest },
          List.get?_mem hget, by simp⟩
      simp only [hany, eq_self_iff_true, if_true]
      refine ⟨_, rfl, ?_⟩
      have hmapget : (b.players.map (fun x => x.longest_road)).get? player
          = some ((fun (x : Player) => x.longest_road)
              { pl with road_length := longest }) := by
        rw [List.get?_eq_getElem?, List.getElem?_map]
        rw [List.get?_eq_getElem?] at hpl
        rw [hpl]
        rfl
      rw [List.map_set]
      exact List.set_of_get?_eq _ player _ hmapget
    · rw [if_neg hlt]; exact ⟨b, rfl, rfl⟩
  · rw [if_neg h5]; exact ⟨b, rfl, rfl⟩

theorem C2_longest_road_bonus_never_awarded_witness :
    ∃ b', WB.longest_road_award 1 6 = .ok b' ∧
      b'.players.map (·.longest_road) = WB.players.map (·.longest_road) :=
  C2_longest_road_bonus_never_awarded WB 1 6 poorP (by decide)

/-- The all-preconditions-pass path of `build_road`: the edge is written,
the piece pool decremented, and then `check_road_length` raises, so the
call ends in a crash carrying the mutated board — it never returns `True`. -/
theorem build_road_success_path
    (b : Board) (p loc : Nat) (free : Bool) (pl : Player)
    (nextS nextR : List Bool)
    (hWF : b.WF)
    (h0 : b.roads.get? loc = some 0)
    (hpl : b.players.get? p = some pl)
    (hpieces : 0 < pl.roads)
    (hS : b.r2s loc = .ok nextS)
    (hR : b.r2r loc = .ok nextR)
    (hconn : 0 < maskCountEq b.settlements nextS p + maskCountEq b.roads nextR p +
      maskCountEq b.cities nextS p)
    (hpaid : free = true ∨ pl.has costRoad = true) :
    ∃ e pl1, b.build_road p loc free =
      (.crash e, { b.setPlayer p { pl1 with roads := pl1.roads - 1 } with
        roads := b.roads.set loc p }) ∧
      pl1.roads = pl.roads ∧ pl1.facedown_devcards = pl.facedown_devcards ∧
      pl1.faceup_devcards = pl.faceup_devcards ∧ (free = true → pl1 = pl) := by
  have hb1WF : ∀ pl1 : Player,
      ({ b.setPlayer p pl1 with roads := b.roads.set loc p } : Board).WF := by
    intro pl1
    exact WF_of_same_shape b _ hWF rfl rfl (by simp) rfl rfl rfl rfl
  unfold Board.build_road
  simp only [h0, hpl, hS, hR, eq_self_iff_true, if_true, if_pos hpieces,
    if_pos hconn]
  by_cases hfree : free = true
  · subst hfree
    obtain ⟨e, hcrash⟩ := check_road_length_crashes
      ({ b.setPlayer p { pl with roads := pl.roads - 1 } with
         roads := b.roads.set loc p }) p loc (hb1WF _)
    refine ⟨e, pl, ?_, rfl, rfl, rfl, fun _ => rfl⟩
    simp only [eq_self_iff_true, if_true, hcrash]
  · have hhas : pl.has costRoad = true := hpaid.resolve_left hfree
    have hfree' : free = false := by
      cases free
      · rfl
      · exact absurd rfl hfree
    subst hfree'
    obtain ⟨e, hcrash⟩ := check_road_length_crashes
      ({ b.setPlayer p
            { pl with
              resources := pl.resources.sub costRoad
              roads := pl.roads - 1 } with
         roads := b.roads.set loc p }) p loc (hb1WF _)
    refine ⟨e, { pl with resources := pl.resources.sub costRoad },
      ?_, rfl, rfl, rfl, fun hc => by simp at hc⟩
    simp only [Bool.false_eq_true, if_false, Player.spend, hhas, if_true,
      eq_self_iff_true, hcrash]

/-- C3.  `build_road`'s success path does set the edge's owner to `p` and
decrement `p`'s road pieces, and every later `build_road` on the same edge
then fails with AlreadyOccupied — but the call itself never returns success:
it raises out of `check_road_length` (the repository's own test,
`test.py:130`, asserts `build_road(1, 1, free=True)` returns `True`).  The
claim's "if build_road succeeds" is therefore never realized. -/
theorem C3_build_road_mutates_then_crashes
    (b : Board) (p loc : Nat) (free : Bool) (pl : Player)
    (nextS nextR : List Bool)
    (hWF : b.WF) (hp : 1 ≤ p)
    (h0 : b.roads.get? loc = some 0)
    (hpl : b.players.get? p = some pl)
    (hpieces : 0 < pl.roads)
    (hS : b.r2s loc = .ok nextS)
    (hR : b.r2r loc = .ok nextR)
    (hconn : 0 < maskCountEq b.settlements nextS p + maskCountEq b.roads nextR p +
      maskCountEq b.cities nextS p)
    (hpaid : free = true ∨ pl.has costRoad = true) :
    ∃ e b', b.build_road p loc free = (.crash e, b') ∧
      b'.roads = b.roads.set loc p ∧
      (∃ pl', b'.players.get? p = some pl' ∧ pl'.roads = pl.roads - 1) ∧
      ∀ q free2, (b'.build_road q loc free2).1 = .failure .alreadyOccupied := by
  obtain ⟨e, pl1, heq, hroads, _, _, _⟩ :=
    build_road_success_path b p loc free pl nextS nextR hWF h0 hpl hpieces hS hR
      hconn hpaid
  have hplen : p < b.players.length := by
    by_contra hc
    rw [List.get?_eq_none.mpr (by omega)] at hpl
    exact Option.noConfusion hpl
  have hloclen : loc < b.roads.length := by
    by_contra hc
    rw [List.get?_eq_none.mpr (by omega)] at h0
    exact Option.noConfusion h0
  refine ⟨e, _, heq, rfl, ?_, ?_⟩
  · refine ⟨{ pl1 with roads := pl1.roads - 1 }, ?_, by simp [hroads]⟩
    have hg : (b.players.set p { pl1 with roads := pl1.roads - 1 }).get? p
        = some { pl1 with roads := pl1.roads - 1 } := by
      rw [List.get?_eq_getElem?, List.getElem?_set_self]
      exact hplen
    exact hg
  · intro q free2
    have hget : ((b.roads.set loc p).get? loc) = some p := by
      rw [List.get?_eq_getElem?, List.getElem?_set_self]
      exact hloclen
    unfold Board.build_road
    simp only [Board.setPlayer]
    simp only [hget]
    rw [if_neg (by omega)]

set_option maxRecDepth 100000 in
theorem C3_build_road_mutates_then_crashes_witness :
    ∃ e b', C3B.build_road 1 2 true = (.crash e, b') ∧
      b'.roads = C3B.roads.set 2 1 ∧
      (∃ pl', b'.players.get? 1 = some pl' ∧ pl'.roads = poorP.roads - 1) ∧
      ∀ q free2, (b'.build_road q 2 free2).1 = .failure .alreadyOccupied :=
  C3_build_road_mutates_then_crashes C3B 1 2 true poorP
    ((C3B.r2s 2).toOption.getD []) ((C3B.r2r 2).toOption.getD [])
    (by decide) (by decide) (by decide) (by decide) (by decide)
    (by rfl) (by rfl) (by decide) (Or.inl rfl)

theorem build_road_failure_unchanged (b : Board) (p loc : Nat) (free : Bool)
    (k : Failure) (b' : Board) (h : b.build_road p loc free = (.failure k, b')) :
    b' = b := by
  unfold Board.build_road at h
  dsimp only at h
  repeat' split at h
  all_goals injection h with h1 h2
  all_goals first
    | exact Outcome.noConfusion h1
    | exact h2.symm

theorem build_settlement_failure_unchanged (b : Board) (p loc : Nat)
    (i g : Bool) (k : Failure) (b' : Board)
    (h : b.build_settlement p loc i g = (.failure k, b')) : b' = b := by
  unfold Board.build_settlement at h
  try dsimp only at h
  repeat' split at h
  all_goals injection h with h1 h2
  all_goals first
    | exact Outcome.noConfusion h1
    | exact h2.symm

theorem build_city_failure_unchanged (b : Board) (p loc : Nat)
    (k : Failure) (b' : Board) (h : b.build_city p loc = (.failure k, b')) :
    b' = b := by
  unfold Board.build_city at h
  try dsimp only at h
  repeat' split at h
  all_goals injection h with h1 h2
  all_goals first
    | exact Outcome.noConfusion h1
    | exact h2.symm

theorem build_road_disconnected (b : Board) (p loc : Nat) (free : Bool)
    (pl : Player) (nextS nextR : List Bool)
    (h0 : b.roads.get? loc = some 0)
    (hpl : b.players.get? p = some pl)
    (hpieces : 0 < pl.roads)
    (hS : b.r2s loc = .ok nextS)
    (hR : b.r2r loc = .ok nextR)
    (hconn : maskCountEq b.settlements nextS p + maskCountEq b.roads nextR p +
      maskCountEq b.cities nextS p = 0) :
    b.build_road p loc free = (.failure .notConnected, b) := by
  unfold Board.build_road
  simp only [h0, hpl, hS, hR, eq_self_iff_true, if_true, if_pos hpieces]
  rw [if_neg (by omega)]

/-- C5.  Every returning failure of the three build operations leaves the
board exactly as it was (ownership arrays, piece pools, resources — the
whole state), and in particular a disconnected road build fails with
NotConnected and changes nothing. -/
theorem C5_build_ops_atomic_on_failure :
    (∀ (b : Board) (p loc : Nat) (free : Bool) (k : Failure) (b' : Board),
      b.build_road p loc free = (.failure k, b') → b' = b) ∧
    (∀ (b : Board) (p loc : Nat) (i g : Bool) (k : Failure) (b' : Board),
      b.build_settlement p loc i g = (.failure k, b') → b' = b) ∧
    (∀ (b : Board) (p loc : Nat) (k : Failure) (b' : Board),
      b.build_city p loc = (.failure k, b') → b' = b) ∧
    (∀ (b : Board) (p loc : Nat) (free : Bool) (pl : Player)
      (nextS nextR : List Bool),
      b.roads.get? loc = some 0 → b.players.get? p = some pl →
      0 < pl.roads → b.r2s loc = .ok nextS → b.r2r loc = .ok nextR →
      maskCountEq b.settlements nextS p + maskCountEq b.roads nextR p +
        maskCountEq b.cities nextS p = 0 →
      b.build_road p loc free = (.failure .notConnected, b)) :=
  ⟨build_road_failure_unchanged, build_settlement_failure_unchanged,
    build_city_failure_unchanged,
    fun b p loc free pl nextS nextR h0 hpl hpieces hS hR hconn =>
      build_road_disconnected b p loc free pl nextS nextR h0 hpl hpieces hS hR
        hconn⟩

set_option maxRecDepth 100000 in
theorem C5_build_ops_atomic_on_failure_witness :
    WB.build_road 1 5 true = (.failure .notConnected, WB) ∧
    (WB.build_settlement 1 3 false false).2 = WB ∧
    (WB.build_city 1 3).2 = WB ∧
    (WB.build_road 1 5 false).2 = WB :=
  ⟨C5_build_ops_atomic_on_failure.2.2.2 WB 1 5 true poorP
      ((WB.r2s 5).toOption.getD []) ((WB.r2r 5).toOption.getD [])
      (by decide) (by decide) (by decide) (by rfl) (by rfl) (by decide),
    C5_build_ops_atomic_on_failure.2.1 WB 1 3 false false .noRoad
      (WB.build_settlement 1 3 false false).2 (by rfl),
    C5_build_ops_atomic_on_failure.2.2.1 WB 1 3 .noSettlementThere
      (WB.build_city 1 3).2 (by rfl),
    C5_build_ops_atomic_on_failure.1 WB 1 5 false .notConnected
      (WB.build_road 1 5 false).2 (by rfl)⟩

/-- C8.  Monopoly with a valid resource name never transfers anything: on
every board with at least one player object the first loop iteration
rebinds `player` to a `Player` object and indexes `self.players` with it,
raising a `TypeError` before any resources move (and even past that, it
would feed `spend`'s boolean into `get`).  In the claim's own scenario —
opponents holding 3 and 0 units — the activator gains nothing and the
opponent keeps its 3 units. -/
theorem C8_monopoly_always_crashes (b : Board) (p : Nat) (r : Resource)
    (hne : b.players ≠ []) :
    b.monopoly p (some r) = (.crash .typeError, b) := by
  cases hq : b.players with
  | nil => exact absurd hq hne
  | cons q rest => simp only [Board.monopoly, hq]

theorem C8_monopoly_always_crashes_witness :
    C8B.monopoly 1 (some .wood) = (.crash .typeError, C8B) :=
  C8_monopoly_always_crashes C8B 1 .wood (by decide)

theorem get?_setPlayer_self (b : Board) (i : Nat) (pl : Player)
    (h : i < b.players.length) :
    (b.setPlayer i pl).players.get? i = some pl := by
  unfold Board.setPlayer
  rw [List.get?_eq_getElem?, List.getElem?_set_self]
  exact h

theorem addvp_fields (b : Board) (i : Nat) (pl : Player)
    (h : b.players.get? i = some pl) :
    (b.addvp i).players =
      b.players.set i { pl with victory_points := pl.victory_points + 1 } ∧
    (b.addvp i).settlements = b.settlements ∧
    (b.addvp i).cities = b.cities ∧
    (b.addvp i).roads = b.roads ∧
    (b.addvp i).border_map = b.border_map ∧
    (b.addvp i).road_adjacency = b.road_adjacency ∧
    (b.addvp i).tile_adjacency = b.tile_adjacency ∧
    (b.addvp i).tiles = b.tiles := by
  unfold Board.addvp
  simp only [h]
  split <;> simp [Board.setPlayer]

theorem s2r_ok_lt (b : Board) (v : Nat) (mask : List Bool)
    (hWF : b.WF) (h : b.s2r v = .ok mask) : v < 54 := by
  obtain ⟨hadj, hrows, _⟩ := hWF
  by_contra hc
  have hne : b.road_adjacency ≠ [] := by
    intro hnil; rw [hnil] at hadj; simp at hadj
  obtain ⟨r0, rrest, hcons⟩ := List.exists_cons_of_ne_nil hne
  have herr : b.s2r v = .error .indexError := by
    unfold Board.s2r ilocCol
    rw [hcons]
    exact colLoop_err v r0 rrest (by rw [hrows r0 (by rw [hcons]; simp)]; omega)
  rw [h] at herr
  exact Except.noConfusion herr

theorem s2s_ok_lt (b : Board) (v : Nat) (blocking : List Bool)
    (hWF : b.WF) (h : b.s2s v = .ok blocking) : v < 54 := by
  unfold Board.s2s at h
  cases hq : b.s2r v with
  | error e => rw [hq] at h; exact Except.noConfusion h
  | ok mask => exact s2r_ok_lt b v mask hWF hq

theorem get?_set_self_of_lt {α : Type _} (l : List α) (i : Nat) (x : α)
    (h : i < l.length) : (l.set i x).get? i = some x := by
  rw [List.get?_eq_getElem?, List.getElem?_set_self]
  exact h

/-- C10.  `build_settlement` never looks at the target junction's own
occupancy: its blocking scan (`s2s`) covers only the junctions one road
away, the target itself being cleared from the mask.  So on any state where
junction `v` already carries a settlement or city, a call whose distance-2,
road/`initial` and resource checks pass succeeds, overwrites the
settlement slot with `p`, and leaves the cities array (any existing city at
`v` included) untouched. -/
theorem C10_build_settlement_ignores_target_occupancy
    (b : Board) (p v : Nat) (i : Bool) (pl : Player)
    (blocking mask : List Bool)
    (hWF : b.WF) (hp : 1 ≤ p)
    (hocc : b.settlements.getD v 0 ≠ 0 ∨ b.cities.getD v 0 ≠ 0)
    (hs2s : b.s2s v = .ok blocking)
    (hblock : blockSum b.settlements b.cities blocking = 0)
    (hs2r : b.s2r v = .ok mask)
    (hpl : b.players.get? p = some pl)
    (hcond : (0 < maskCountEq b.roads mask p ∧ pl.has costSettlement = true) ∨
      (maskCountEq b.roads mask p = 0 ∧ i = true)) :
    ∃ b', b.build_settlement p v i false = (.success, b') ∧
      b'.settlements = b.settlements.set v p ∧
      b'.cities = b.cities := by
  have hplen : p < b.players.length := by
    by_contra hc
    rw [List.get?_eq_none.mpr (by omega)] at hpl
    exact Option.noConfusion hpl
  have hv54 : v < 54 := s2r_ok_lt b v mask hWF hs2r
  have hvb : v < b.border_map.length := by
    obtain ⟨_, _, _, _, _, _, _, _, hbl⟩ := hWF
    omega
  obtain ⟨port, hport⟩ : ∃ port, b.border_map.get? v = some port :=
    ⟨_, List.get?_eq_get hvb⟩
  unfold Board.build_settlement
  simp only [hs2s, hs2r]
  rw [if_pos hblock]
  rcases hcond with ⟨hroad, hhas⟩ | ⟨hnoroad, hi⟩
  · rw [if_pos hroad]
    simp only [hpl, Player.spend, hhas, eq_self_iff_true, if_true]
    generalize hB1 :
      ({ b.setPlayer p { pl with resources := pl.resources.sub costSettlement }
          with settlements := b.settlements.set v p } : Board) = B1
    have hB1p : B1.players =
        b.players.set p { pl with resources := pl.resources.sub costSettlement } := by
      rw [← hB1]; rfl
    have h1 : B1.players.get? p =
        some { pl with resources := pl.resources.sub costSettlement } := by
      rw [hB1p]; exact get?_set_self_of_lt _ p _ (by simpa using hplen)
    obtain ⟨hpw, hs2, hc2, _, hb2, _, _, _⟩ := addvp_fields B1 p _ h1
    have h2 : (B1.addvp p).players.get? p = some
        { { pl with resources := pl.resources.sub costSettlement } with
          victory_points :=
            ({ pl with resources := pl.resources.sub costSettlement } :
              Player).victory_points + 1 } := by
      rw [hpw]
      refine get?_set_self_of_lt _ p _ ?_
      rw [hB1p]; simpa using hplen
    have h3 : (B1.addvp p).border_map.get? v = some port := by
      rw [hb2, ← hB1]
      exact hport
    simp only [h2, h3]
    refine ⟨_, rfl, ?_, ?_⟩
    · exact hs2.trans (by rw [← hB1]; try simp [Board.setPlayer])
    · exact hc2.trans (by rw [← hB1]; try simp [Board.setPlayer])
  · rw [if_neg (by omega)]
    rw [if_pos hi]
    simp only [hpl]
    generalize hB1 :
      ({ b with settlements := b.settlements.set v p } : Board) = B1
    have hB1p : B1.players = b.players := by rw [← hB1]
    have h1 : (B1.setPlayer p { pl with settlements := pl.settlements - 1 }).players.get? p
        = some { pl with settlements := pl.settlements - 1 } := by
      unfold Board.setPlayer
      rw [hB1p]
      exact get?_set_self_of_lt _ p _ hplen
    obtain ⟨hpw, hs2, hc2, _, hb2, _, _, _⟩ := addvp_fields _ p _ h1
    have h2 : ((B1.setPlayer p { pl with settlements := pl.settlements - 1 }).addvp
        p).players.get? p = some
        { { pl with settlements := pl.settlements - 1 } with
          victory_points :=
            ({ pl with settlements := pl.settlements - 1 } :
              Player).victory_points + 1 } := by
      rw [hpw]
      refine get?_set_self_of_lt _ p _ ?_
      show p < (B1.setPlayer p _).players.length
      unfold Board.setPlayer
      rw [hB1p]
      simpa using hplen
    have h3 : ((B1.setPlayer p { pl with settlements := pl.settlements - 1 }).addvp
        p).border_map.get? v = some port := by
      rw [hb2]
      have : (B1.setPlayer p { pl with settlements := pl.settlements - 1 }).border_map
          = b.border_map := by rw [← hB1]; rfl
      rw [this]
      exact hport
    simp only [h2, h3, Bool.false_eq_true, if_false]
    refine ⟨_, rfl, ?_, ?_⟩
    · refine hs2.trans ?_
      simp only [Board.setPlayer]
      rw [← hB1]
    · refine hc2.trans ?_
      simp only [Board.setPlayer]
      rw [← hB1]

set_option maxRecDepth 400000 in
theorem C10_build_settlement_ignores_target_occupancy_witness :
    ∃ b', C10B.build_settlement 1 10 true false = (.success, b') ∧
      b'.settlements = C10B.settlements.set 10 1 ∧
      b'.cities = C10B.cities :=
  C10_build_settlement_ignores_target_occupancy C10B 1 10 true poorP
    ((C10B.s2s 10).toOption.getD []) ((C10B.s2r 10).toOption.getD [])
    (by decide) (by decide) (by decide) (by rfl) (by decide) (by rfl)
    (by decide) (Or.inr ⟨by decide, rfl⟩)

theorem get?_of_drop_cons {α : Type _} (l : List α) (i : Nat) (x : α)
    (xs : List α) (h : l.drop i = x :: xs) : l.get? i = some x := by
  rw [List.get?_eq_getElem?]
  have h2 := List.getElem?_drop l i 0
  rw [h] at h2
  simpa using h2.symm

theorem drop_succ_of_drop_cons {α : Type _} (l : List α) (i : Nat) (x : α)
    (xs : List α) (h : l.drop i = x :: xs) : l.drop (i + 1) = xs := by
  rw [← List.drop_drop, h]
  rfl

theorem Bank.get_add (a c : Bank) (r : Resource) :
    (a.add c).get r = a.get r + c.get r := by
  cases r <;> rfl

theorem Tile.give_get (t : Tile) (r : Resource) :
    (t.give 1).get r = if t.resource = some r then 1 else 0 := by
  cases ht : t.resource with
  | none => simp [Tile.give, ht, Bank.get, Bank.zero] <;> cases r <;> rfl
  | some q =>
    cases q <;> cases r <;>
      simp [Tile.give, ht, Bank.setR, Bank.get, Bank.zero]

theorem Player.addport_resources (p : Player) (port : Option PortKind) :
    (p.addport port).resources = p.resources := by
  unfold Player.addport
  split <;> rfl

/-- The `getnear` crediting loop, run from tile index `i` over the suffix
`ts` of the board's tiles: it finishes without raising and credits exactly
one unit per covered tile of that tile's resource. -/
theorem creditLoop_spec (player : Nat) :
    ∀ (ms : List Bool) (ts : List Tile) (st : Board) (pl : Player) (i : Nat),
      st.players.get? player = some pl →
      st.tiles.drop i = ts →
      ms.length ≤ ts.length →
      ∃ pl', creditLoop player st i ms = (none, st.setPlayer player pl') ∧
        ∀ r, pl'.resources.get r = pl.resources.get r + zipCredit ms ts r := by
  intro ms
  induction ms with
  | nil =>
    intro ts st pl i hpl _ _
    refine ⟨pl, ?_, fun r => by simp [zipCredit]⟩
    show (none, st) = _
    unfold Board.setPlayer
    rw [List.set_of_get?_eq _ _ _ hpl]
  | cons m ms ih =>
    intro ts st pl i hpl hdrop hlen
    cases ts with
    | nil => simp at hlen
    | cons t ts' =>
      have hplen : player < st.players.length := by
        by_contra hc
        rw [List.get?_eq_none.mpr (by omega)] at hpl
        exact Option.noConfusion hpl
      have hti : st.tiles.get? i = some t := get?_of_drop_cons _ _ _ _ hdrop
      have hdrop' : st.tiles.drop (i + 1) = ts' :=
        drop_succ_of_drop_cons _ _ _ _ hdrop
      cases hm : m with
      | false =>
        obtain ⟨pl', hrun, hres⟩ := ih ts' st pl (i + 1) hpl (by rw [hdrop'])
          (by simpa using Nat.le_of_succ_le_succ (by simpa using hlen))
        refine ⟨pl', ?_, fun r => ?_⟩
        · unfold creditLoop
          simp only [if_false, Bool.false_eq_true]
          exact hrun
        · rw [hres r]
          simp [zipCredit]
      | true =>
        have hpl1 : (st.setPlayer player (pl.get (t.give 1))).players.get? player
            = some (pl.get (t.give 1)) := get?_setPlayer_self st player _ hplen
        have htiles1 : (st.setPlayer player (pl.get (t.give 1))).tiles.drop (i + 1)
            = ts' := hdrop'
        obtain ⟨pl', hrun, hres⟩ := ih ts' _ (pl.get (t.give 1)) (i + 1) hpl1
          htiles1 (by simpa using Nat.le_of_succ_le_succ (by simpa using hlen))
        refine ⟨pl', ?_, fun r => ?_⟩
        · unfold creditLoop
          simp only [if_true, hpl, hti]
          rw [hrun]
          unfold Board.setPlayer
          rw [List.set_set]
        · rw [hres r]
          unfold Player.get
          rw [Bank.get_add, Tile.give_get]
          simp only [zipCredit, hm]
          by_cases hc : t.resource = some r
          · simp [hc]
            ring
          · simp [hc]

/-- C6, counterexample.  On `C6B` player 1 owns a road touching junction 2
and holds no resources; the distance-2 rule is satisfied, yet
`build_settlement(1, 2, initial=True)` fails with "No Resources!" — the
road-ownership test is checked before `initial`, so owning a touching road
routes even an initial placement through the paid branch, contradicting
"succeeds regardless of whether p owns a road touching v and without
spending any resources". -/
theorem C6_initial_settlement_counterexample :
    blockSum C6B.settlements C6B.cities ((C6B.s2s 2).toOption.getD []) = 0 ∧
    0 < maskCountEq C6B.roads ((C6B.s2r 2).toOption.getD []) 1 ∧
    C6B.build_settlement 1 2 true false = (.failure .noResources, C6B) :=
  ⟨by set_option maxRecDepth 400000 in decide,
    by set_option maxRecDepth 400000 in decide,
    by set_option maxRecDepth 400000 in rfl⟩

/-- C6, amended.  For a player owning no road touching `v`, an initial
placement at a distance-2-legal junction succeeds without touching the
player's resources, and with `getnear` credits exactly one unit of each
covering non-desert tile's resource. -/
theorem C6_amended_initial_settlement
    (b : Board) (p v : Nat) (g : Bool) (pl : Player)
    (blocking mask : List Bool)
    (hWF : b.WF)
    (hs2s : b.s2s v = .ok blocking)
    (hblock : blockSum b.settlements b.cities blocking = 0)
    (hs2r : b.s2r v = .ok mask)
    (hnoroad : maskCountEq b.roads mask p = 0)
    (hpl : b.players.get? p = some pl) :
    ∃ b' pl', b.build_settlement p v true g = (.success, b') ∧
      b'.players.get? p = some pl' ∧
      ∀ r, pl'.resources.get r =
        pl.resources.get r + (if g then tileCredit b v r else 0) := by
  have hplen : p < b.players.length := by
    by_contra hc
    rw [List.get?_eq_none.mpr (by omega)] at hpl
    exact Option.noConfusion hpl
  have hv54 : v < 54 := s2r_ok_lt b v mask hWF hs2r
  obtain ⟨hadj, hrows, hta, htarows, h72, h54s, h54c, h19, hbl⟩ := hWF
  have hvb : v < b.border_map.length := by omega
  obtain ⟨port, hport⟩ : ∃ port, b.border_map.get? v = some port :=
    ⟨_, List.get?_eq_get hvb⟩
  unfold Board.build_settlement
  simp only [hs2s, hs2r]
  rw [if_pos hblock, if_neg (by omega)]
  simp only [eq_self_iff_true, if_true, hpl]
  generalize hB1 : ({ b with settlements := b.settlements.set v p } : Board) = B1
  have hB1p : B1.players = b.players := by rw [← hB1]
  have hB1t : B1.tile_adjacency = b.tile_adjacency := by rw [← hB1]
  have hB1ti : B1.tiles = b.tiles := by rw [← hB1]
  have hB1b : B1.border_map = b.border_map := by rw [← hB1]
  have h1 : (B1.setPlayer p { pl with settlements := pl.settlements - 1 }).players.get? p
      = some { pl with settlements := pl.settlements - 1 } := by
    unfold Board.setPlayer
    rw [hB1p]
    exact get?_set_self_of_lt _ p _ hplen
  obtain ⟨hpw, hs2, hc2, hr2, hb2, hra2, hta2, hti2⟩ := addvp_fields _ p _ h1
  have h2 : ((B1.setPlayer p { pl with settlements := pl.settlements - 1 }).addvp
      p).players.get? p = some
      { { pl with settlements := pl.settlements - 1 } with
        victory_points :=
          ({ pl with settlements := pl.settlements - 1 } :
            Player).victory_points + 1 } := by
    rw [hpw]
    refine get?_set_self_of_lt _ p _ ?_
    show p < (B1.setPlayer p _).players.length
    unfold Board.setPlayer
    rw [hB1p]
    simpa using hplen
  have h3 : ((B1.setPlayer p { pl with settlements := pl.settlements - 1 }).addvp
      p).border_map.get? v = some port := by
    rw [hb2]
    show B1.border_map.get? v = some port
    rw [hB1b]
    exact hport
  simp only [h2, h3]
  cases g with
  | false =>
    simp only [Bool.false_eq_true, if_false]
    refine ⟨_, ({ { pl with settlements := pl.settlements - 1 } with
        victory_points := ({ pl with settlements := pl.settlements - 1 } :
          Player).victory_points + 1 }).addport port, rfl, ?_, fun r => ?_⟩
    · refine get?_setPlayer_self _ p _ ?_
      have hl1 : (((B1.setPlayer p
          { pl with settlements := pl.settlements - 1 }).addvp p)).players.length
          = b.players.length := by
        rw [hpw]
        show ((B1.setPlayer p _).players.set p _).length = _
        unfold Board.setPlayer
        rw [List.length_set, hB1p, List.length_set]
      omega
    · rw [Player.addport_resources]
      simp
  | true =>
    rw [if_pos rfl]
    generalize hB3 : ((B1.setPlayer p { pl with settlements := pl.settlements - 1
        }).addvp p).setPlayer p
        (({ { pl with settlements := pl.settlements - 1 } with
          victory_points := ({ pl with settlements := pl.settlements - 1 } :
            Player).victory_points + 1 }).addport port) = B3
    have hlB2 : ((B1.setPlayer p { pl with settlements := pl.settlements - 1
        }).addvp p).players.length = b.players.length := by
      rw [hpw]
      show ((B1.setPlayer p _).players.set p _).length = _
      unfold Board.setPlayer
      rw [List.length_set, hB1p, List.length_set]
    obtain ⟨pl3, hpl3, hres3⟩ : ∃ pl3, B3.players.get? p = some pl3 ∧
        pl3.resources = pl.resources := by
      refine ⟨({ { pl with settlements := pl.settlements - 1 } with
          victory_points := ({ pl with settlements := pl.settlements - 1 } :
            Player).victory_points + 1 }).addport port, ?_, ?_⟩
      · rw [← hB3]
        exact get?_setPlayer_self _ p _ (by omega)
      · rw [Player.addport_resources]
    have hta3 : B3.tile_adjacency = b.tile_adjacency := by
      rw [← hB3]
      exact hta2.trans hB1t
    have hti3 : B3.tiles = b.tiles := by
      rw [← hB3]
      exact hti2.trans hB1ti
    have hplen3 : p < B3.players.length := by
      have : B3.players.length = b.players.length := by
        rw [← hB3]
        show (((B1.setPlayer p _).addvp p).players.set p _).length = _
        rw [List.length_set]
        exact hlB2
      omega
    have hs2t3 : B3.s2t v = .ok (b.tile_adjacency.map fun row =>
        row.getD v false) := by
      unfold Board.s2t ilocCol
      rw [hta3]
      exact colLoop_ok v b.tile_adjacency fun row hr => by
        rw [htarows row hr]; exact hv54
    simp only [hs2t3]
    obtain ⟨pl', hrun, hres⟩ := creditLoop_spec p
      (b.tile_adjacency.map fun row => row.getD v false) b.tiles B3 pl3 0 hpl3
      (by rw [hti3, List.drop_zero]) (by simp [hta, h19])
    have hrun2 : creditTiles B3 p
        (b.tile_adjacency.map fun row => row.getD v false)
        = (none, B3.setPlayer p pl') := hrun
    simp only [hrun2]
    refine ⟨_, pl', rfl, ?_, fun r => ?_⟩
    · exact get?_setPlayer_self _ p _ hplen3
    · rw [hres r, hres3]
      rfl

theorem C6_amended_initial_settlement_witness :
    ∃ b' pl', WB.build_settlement 1 0 true true = (.success, b') ∧
      b'.players.get? 1 = some pl' ∧
      ∀ r, pl'.resources.get r =
        poorP.resources.get r + (if true then tileCredit WB 0 r else 0) :=
  C6_amended_initial_settlement WB 1 0 true poorP
    ((WB.s2s 0).toOption.getD []) ((WB.s2r 0).toOption.getD [])
    (by set_option maxRecDepth 400000 in decide)
    (by set_option maxRecDepth 400000 in rfl)
    (by set_option maxRecDepth 400000 in decide)
    (by set_option maxRecDepth 400000 in rfl)
    (by set_option maxRecDepth 400000 in decide)
    (by decide)

/-- C9, counterexample.  On `C9B` player 1 activates an aged Road Building
card with a first location whose free build passes every check.  The road is
placed and stays placed, but the activation does not complete: the first
build raises in the longest-road search, and `flip_devcard` — called only
after `road_building` returns `True` — never runs, so the card is neither
removed from the face-down hand nor marked used, contradicting "the card is
nonetheless consumed". -/
theorem C9_road_building_counterexample :
    (C9B.activate_devcard 1 .roadBuildingCard 1 (.ints 0 1) 0).1
        = .crash .valueError ∧
    (C9B.activate_devcard 1 .roadBuildingCard 1 (.ints 0 1) 0).2.roads.get? 0
        = some 1 ∧
    ((C9B.activate_devcard 1 .roadBuildingCard 1 (.ints 0 1) 0).2.players.get?
        1).map (·.facedown_devcards) = some [(.roadBuildingCard, 0)] ∧
    ((C9B.activate_devcard 1 .roadBuildingCard 1 (.ints 0 1) 0).2.players.get?
        1).map (·.faceup_devcards) = some [] := by
  refine ⟨?_, ?_, ?_, ?_⟩ <;> set_option maxRecDepth 1000000 in rfl

/-- C9, amended.  When the first free build of a Road Building activation
passes its preconditions, the first road is placed with no rollback, but the
activation ends in the longest-road search's exception and the card is NOT
consumed: it stays in the face-down hand and nothing is marked used. -/
theorem C9_road_building_places_first_road_card_kept
    (b : Board) (p l1 l2 : Nat) (turn draw : Int) (pl : Player)
    (nextS nextR : List Bool)
    (hWF : b.WF)
    (hpl : b.players.get? p = some pl)
    (hflip : pl.can_flip_devcard .roadBuildingCard b.turn_number = true)
    (h0 : b.roads.get? l1 = some 0)
    (hpieces : 0 < pl.roads)
    (hS : b.r2s l1 = .ok nextS) (hR : b.r2r l1 = .ok nextR)
    (hconn : 0 < maskCountEq b.settlements nextS p + maskCountEq b.roads nextR p +
      maskCountEq b.cities nextS p) :
    ∃ e b', b.activate_devcard p .roadBuildingCard turn (.ints l1 l2) draw
        = (.crash e, b') ∧
      b'.roads = b.roads.set l1 p ∧
      (∃ pl', b'.players.get? p = some pl' ∧
        pl'.facedown_devcards = pl.facedown_devcards ∧
        pl'.faceup_devcards = pl.faceup_devcards) := by
  have hplen : p < b.players.length := by
    by_contra hc
    rw [List.get?_eq_none.mpr (by omega)] at hpl
    exact Option.noConfusion hpl
  obtain ⟨e, pl1, heq, _, hfd, hfu, _⟩ :=
    build_road_success_path b p l1 true pl nextS nextR hWF h0 hpl hpieces hS hR
      hconn (Or.inl rfl)
  unfold Board.activate_devcard
  simp only [hpl, hflip, eq_self_iff_true, if_true]
  unfold Board.road_building
  simp only [heq]
  refine ⟨e, _, rfl, rfl, ?_⟩
  refine ⟨{ pl1 with roads := pl1.roads - 1 }, ?_, by simp [hfd], by simp [hfu]⟩
  show ((b.setPlayer p _).players).get? p = _
  unfold Board.setPlayer
  exact get?_set_self_of_lt _ p _ hplen

set_option maxRecDepth 1000000 in
theorem C9_road_building_places_first_road_card_kept_witness :
    ∃ e b', C9B.activate_devcard 1 .roadBuildingCard 1 (.ints 0 1) 0
        = (.crash e, b') ∧
      b'.roads = C9B.roads.set 0 1 ∧
      (∃ pl', b'.players.get? 1 = some pl' ∧
        pl'.facedown_devcards =
          ({ poorP with facedown_devcards := [(.roadBuildingCard, 0)] } :
            Player).facedown_devcards ∧
        pl'.faceup_devcards =
          ({ poorP with facedown_devcards := [(.roadBuildingCard, 0)] } :
            Player).faceup_devcards) :=
  C9_road_building_places_first_road_card_kept C9B 1 0 1 1 0
    { poorP with facedown_devcards := [(.roadBuildingCard, 0)] }
    ((C9B.r2s 0).toOption.getD []) ((C9B.r2r 0).toOption.getD [])
    (by decide) (by decide) (by decide) (by decide) (by decide)
    (by rfl) (by rfl) (by decide)

theorem takeScan_core (p : Player) :
    ∀ (order : List Resource) (chosen : Int),
      ((takeScan p chosen order).2).core = p.core := by
  intro order
  induction order with
  | nil => intro chosen; rfl
  | cons r rs ih =>
    intro chosen
    simp only [takeScan]
    split
    · exact ih _
    · unfold Player.spend
      split <;> rfl

theorem take_random_core (p : Player) (draw : Int) (res : Option Bank × Player)
    (h : p.take_random draw = .ok res) : res.2.core = p.core := by
  unfold Player.take_random at h
  split at h
  · exact Except.noConfusion h
  · injection h with h1
    rw [← h1]
    exact takeScan_core p resourceOrder draw

theorem Player.get_core (p : Player) (c : Bank) : (p.get c).core = p.core := rfl

/-- `rob` only moves the robber and resource cards: every player keeps the
same `core` (victory points, cards, flags, knight count, piece pools), and
the players list keeps its length. -/
theorem rob_core (b : Board) (p1 p2 t : Nat) (draw : Int) :
    (b.rob p1 p2 t draw).2.players.length = b.players.length ∧
    ∀ i, ((b.rob p1 p2 t draw).2.players.get? i).map Player.core
      = (b.players.get? i).map Player.core := by
  have hsetcore : ∀ (bb : Board) (j : Nat) (w w' : Player),
      bb.players.get? j = some w → w'.core = w.core →
      ∀ i, ((bb.setPlayer j w').players.get? i).map Player.core
        = (bb.players.get? i).map Player.core := by
    intro bb j w w' hw hcore i
    unfold Board.setPlayer
    by_cases hij : j = i
    · subst hij
      have hlt : j < bb.players.length := by
        by_contra hc
        rw [List.get?_eq_none.mpr (by omega)] at hw
        exact Option.noConfusion hw
      rw [get?_set_self_of_lt _ j _ hlt, hw]
      simp [hcore]
    · rw [List.get?_eq_getElem?, List.getElem?_set_ne hij,
        ← List.get?_eq_getElem?]
  unfold Board.rob
  cases hq1 : b.tiles.get? t with
  | none => simp [hq1]
  | some tl =>
    simp only [hq1]
    by_cases hrob : tl.robber = false
    case neg => simp [if_neg hrob]
    case pos =>
      rw [if_pos hrob]
      cases hq2 : b.t2s t with
      | error e => simp [hq2]
      | ok spots =>
        simp only [hq2]
        by_cases hadj2 : 0 < maskCountEq b.settlements spots p2 ∨
            0 < maskCountEq b.cities spots p2
        case neg => simp [if_neg hadj2]
        case pos =>
          rw [if_pos hadj2]
          cases hq3 : b.players.get? p1 with
          | none => simp only [hq3]; exact ⟨trivial, fun i => trivial⟩
          | some w1 =>
            simp only [hq3]
            cases hq4 : b.players.get? p2 with
            | none => simp only [hq4]; exact ⟨trivial, fun i => trivial⟩
            | some v =>
              simp only [hq4]
              cases hq5 : v.take_random draw with
              | error e =>
                simp only [hq5]
                exact ⟨trivial, fun i => trivial⟩
              | ok res =>
                have hvcore : res.2.core = v.core := take_random_core v draw res hq5
                rcases res with ⟨rec, v1⟩
                cases rec with
                | none =>
                  simp only [hq5]
                  refine ⟨?_, fun i => ?_⟩
                  · show (b.players.set p2 v1).length = _
                    rw [List.length_set]
                  · exact hsetcore { b with tiles :=
                      (b.tiles.map Tile.clearrobber).set t tl.clearrobber.robT }
                      p2 v v1 hq4 hvcore i
                | some receipt =>
                  simp only [hq5]
                  have hcore2 : ∀ i, ((({ b with tiles :=
                        (b.tiles.map Tile.clearrobber).set t tl.clearrobber.robT
                        : Board}).setPlayer p2 v1).players.get? i).map
                      Player.core = (b.players.get? i).map Player.core :=
                    fun i => hsetcore _ p2 v v1 hq4 hvcore i
                  have hlen2 : ((({ b with tiles :=
                        (b.tiles.map Tile.clearrobber).set t tl.clearrobber.robT
                        : Board}).setPlayer p2 v1)).players.length
                      = b.players.length := by
                    show (b.players.set p2 v1).length = _
                    rw [List.length_set]
                  cases hq6 : (b.players.set p2 v1).get? p1 with
                  | none =>
                    simp only [Board.setPlayer, hq6]
                    exact ⟨hlen2, fun i => hcore2 i⟩
                  | some a =>
                    simp only [Board.setPlayer, hq6]
                    refine ⟨?_, fun i => ?_⟩
                    · show ((b.players.set p2 v1).set p1 _).length = _
                      rw [List.length_set, List.length_set]
                    · have hstep := hsetcore (({ b with tiles :=
                        (b.tiles.map Tile.clearrobber).set t tl.clearrobber.robT
                        : Board}).setPlayer p2 v1) p1 a
                        (a.get receipt) hq6 (Player.get_core a receipt) i
                      exact hstep.trans (hcore2 i)

theorem transfer_players (B : Board) (p : Nat) (q1 : Player)
    (hp' : p < B.players.length) :
    (((B.setPlayer p q1).addvp p).addvp p).players =
      B.players.set p { q1 with victory_points := q1.victory_points + 1 + 1 } := by
  have h0 : (B.setPlayer p q1).players.get? p = some q1 :=
    get?_setPlayer_self B p q1 hp'
  obtain ⟨h1, -⟩ := addvp_fields _ p _ h0
  have hq' : ((B.setPlayer p q1).addvp p).players.get? p
      = some { q1 with victory_points := q1.victory_points + 1 } := by
    rw [h1]
    refine get?_set_self_of_lt _ p _ ?_
    show p < (B.players.set p q1).length
    rw [List.length_set]
    exact hp'
  obtain ⟨h2, -⟩ := addvp_fields _ p _ hq'
  rw [h2, h1]
  have hsp : (B.setPlayer p q1).players = B.players.set p q1 := rfl
  rw [hsp, List.set_set, List.set_set]

/-- **C7** (counterexample).  The claim says that when several players are
tied at the maximum knight count no one holds the largest-army bonus.  In
the code a tie only blocks a *transfer*: after player 1 takes the bonus
with a third knight and player 2 then also reaches three knights, both sit
at the maximum yet player 1 still holds `largest_army` (with its two bonus
points). -/
theorem C7_tie_keeps_largest_army :
    (C7B.knight 1 2 0 1).1 = .success ∧
    (C7B1.knight 2 1 1 1).1 = .success ∧
    (C7B2.players.get? 1).map Player.knight_count = some 3 ∧
    (C7B2.players.get? 2).map Player.knight_count = some 3 ∧
    (C7B2.players.get? 1).map Player.largest_army = some true :=
  ⟨by set_option maxRecDepth 200000 in rfl,
   by set_option maxRecDepth 200000 in rfl,
   by set_option maxRecDepth 200000 in rfl,
   by set_option maxRecDepth 200000 in rfl,
   by set_option maxRecDepth 200000 in rfl⟩

/-- **C7** (amended).  What the `largest_army` block of `Board.knight`
actually guarantees, stated after the robbery succeeded and the activating
player was fetched: (1) with at most two knights nothing but the knight
count changes; (2) on a tie (some *other* player's count at least matches
the new count) every player keeps exactly their old flag and score - in
particular an incumbent holder stays holder through a tie; (3) on a strict
majority the activator ends with the flag and a net gain of exactly two
points, and every other player keeps their score unless they were the
previous holder, who loses the flag and exactly two points. -/
theorem C7_amended_knight_award (b : Board) (p s1 s2 : Nat) (draw : Int)
    (b1 : Board) (pl : Player)
    (hrob : b.rob p s1 s2 draw = (.success, b1))
    (hpl : b1.players.get? p = some pl)
    (hp : p < b1.players.length) :
    (pl.knight_count + 1 ≤ 2 →
      b.knight p s1 s2 draw =
        (.success, b1.setPlayer p { pl with knight_count := pl.knight_count + 1 })) ∧
    (2 < pl.knight_count + 1 →
      (b1.setPlayer p { pl with knight_count := pl.knight_count + 1 }).players.enum.any
          (fun x => decide (x.1 ≠ p) &&
            decide (pl.knight_count + 1 ≤ x.2.knight_count)) = true →
      (b.knight p s1 s2 draw).1 = .success ∧
      ∀ i, ((b.knight p s1 s2 draw).2.players.get? i).map
          (fun q => (q.largest_army, q.victory_points)) =
        (b1.players.get? i).map (fun q => (q.largest_army, q.victory_points))) ∧
    (2 < pl.knight_count + 1 →
      (b1.setPlayer p { pl with knight_count := pl.knight_count + 1 }).players.enum.any
          (fun x => decide (x.1 ≠ p) &&
            decide (pl.knight_count + 1 ≤ x.2.knight_count)) = false →
      (b.knight p s1 s2 draw).1 = .success ∧
      ((b.knight p s1 s2 draw).2.players.get? p).map
          (fun q => (q.largest_army, q.victory_points)) =
        some (true, (if pl.largest_army then pl.victory_points - 2
                     else pl.victory_points) + 2) ∧
      ∀ i, i ≠ p →
        ((b.knight p s1 s2 draw).2.players.get? i).map
            (fun q => (q.largest_army, q.victory_points)) =
          (b1.players.get? i).map (fun q =>
            if q.largest_army then (false, q.victory_points - 2)
            else (q.largest_army, q.victory_points))) := by
  unfold Board.knight
  simp only [hrob]
  simp only [hpl]
  dsimp only
  refine ⟨?_, ?_, ?_⟩
  · intro h1
    rw [if_neg (by omega : ¬ 2 < pl.knight_count + 1)]
  · intro h2 hany
    rw [if_pos h2]
    simp only [hany, if_true]
    refine ⟨trivial, fun i => ?_⟩
    by_cases hip : i = p
    · subst hip
      rw [get?_setPlayer_self b1 i _ hp, hpl]
      rfl
    · show ((b1.players.set p _).get? i).map _ = _
      rw [List.get?_eq_getElem?, List.getElem?_set_ne (fun hc => hip hc.symm),
        ← List.get?_eq_getElem?]
  · intro h2 hany
    rw [if_pos h2]
    simp only [hany, Bool.false_eq_true, if_false]
    have hscr : (List.map
        (fun (q : Player) => if q.largest_army
          then { q with largest_army := false,
                        victory_points := q.victory_points - 2 }
          else q)
        (b1.setPlayer p { pl with knight_count := pl.knight_count + 1 }).players).get? p
        = some ((fun (q : Player) => if q.largest_army
          then { q with largest_army := false,
                        victory_points := q.victory_points - 2 }
          else q) { pl with knight_count := pl.knight_count + 1 }) := by
      have hs := get?_setPlayer_self b1 p
        { pl with knight_count := pl.knight_count + 1 } hp
      rw [List.get?_eq_getElem?] at hs ⊢
      rw [List.getElem?_map, hs]
      rfl
    rw [hscr]
    dsimp only
    let pl1 : Player := { pl with knight_count := pl.knight_count + 1 }
    let d : Player → Player := fun q => if q.largest_army
      then { q with largest_army := false,
                    victory_points := q.victory_points - 2 }
      else q
    let B2 : Board := b1.setPlayer p pl1
    let B3 : Board := { B2 with players := B2.players.map d }
    let q1 : Player := { d pl1 with largest_army := true }
    have hlen3 : p < B3.players.length := by
      show p < (B2.players.map d).length
      rw [List.length_map]
      show p < (b1.players.set p pl1).length
      rw [List.length_set]
      exact hp
    have hfin := transfer_players B3 p q1 hlen3
    have hTp : (((B3.setPlayer p q1).addvp p).addvp p).players.get? p
        = some { q1 with victory_points := q1.victory_points + 1 + 1 } := by
      rw [hfin]
      exact get?_set_self_of_lt _ p _ hlen3
    have hA : Option.map (fun (q : Player) => (q.largest_army, q.victory_points))
        ((((B3.setPlayer p q1).addvp p).addvp p).players.get? p)
        = some (true, (if pl.largest_army then pl.victory_points - 2
                       else pl.victory_points) + 2) := by
      rw [hTp]
      simp only [Option.map_some, Prod.mk.injEq]
      refine congrArg some ?_
      refine Prod.ext ?_ ?_
      · rfl
      · show q1.victory_points + 1 + 1 = _
        show (d pl1).victory_points + 1 + 1 = _
        by_cases hl : pl.largest_army = true
        · simp only [d, pl1, hl, if_true]
          omega
        · simp only [d, pl1, hl, Bool.false_eq_true, if_false]
          omega
    have hB : ∀ i, i ≠ p →
        Option.map (fun (q : Player) => (q.largest_army, q.victory_points))
          ((((B3.setPlayer p q1).addvp p).addvp p).players.get? i)
        = Option.map (fun (q : Player) =>
            if q.largest_army then (false, q.victory_points - 2)
            else (q.largest_army, q.victory_points)) (b1.players.get? i) := by
      intro i hip
      rw [hfin, List.get?_eq_getElem?, List.getElem?_set_ne (fun hc => hip hc.symm),
        ← List.get?_eq_getElem?]
      show Option.map _ ((B2.players.map d).get? i) = _
      rw [List.get?_eq_getElem?, List.getElem?_map]
      rw [show B2.players = b1.players.set p pl1 from rfl,
        List.getElem?_set_ne (fun hc => hip hc.symm), ← List.get?_eq_getElem?]
      cases hq : b1.players.get? i with
      | none => rfl
      | some q =>
        by_cases hlq : q.largest_army = true
        · simp [d, hlq]
        · simp [d, hlq]
    exact ⟨rfl, hA, hB⟩
theorem C7_amended_knight_award_witness :
    ((C7B.knight 1 2 0 1).2.players.get? 1).map
      (fun (q : Player) => (q.largest_army, q.victory_points)) = some (true, 2) := by
  have h := (C7_amended_knight_award C7B 1 2 0 1 (C7B.rob 1 2 0 1).2
      { poorP with knight_count := 2, resources := ⟨1, 0, 0, 0, 0⟩ }
      (by set_option maxRecDepth 400000 in rfl)
      (by set_option maxRecDepth 400000 in rfl)
      (by set_option maxRecDepth 400000 in decide)).2.2
      (by decide) (by set_option maxRecDepth 400000 in rfl)
  simpa using h.2.1

/-! ### Frame lemmas: which ops can touch `settlements`, `cities`,
`road_adjacency` -/

@[simp] theorem setPlayer_settlements (b : Board) (i : Nat) (pl : Player) :
    (b.setPlayer i pl).settlements = b.settlements := rfl

@[simp] theorem setPlayer_cities (b : Board) (i : Nat) (pl : Player) :
    (b.setPlayer i pl).cities = b.cities := rfl

@[simp] theorem setPlayer_radj (b : Board) (i : Nat) (pl : Player) :
    (b.setPlayer i pl).road_adjacency = b.road_adjacency := rfl

@[simp] theorem addvp_settlements (b : Board) (i : Nat) :
    (b.addvp i).settlements = b.settlements := by
  unfold Board.addvp; dsimp only
  repeat' split
  all_goals rfl

@[simp] theorem addvp_cities (b : Board) (i : Nat) :
    (b.addvp i).cities = b.cities := by
  unfold Board.addvp; dsimp only
  repeat' split
  all_goals rfl

@[simp] theorem addvp_radj (b : Board) (i : Nat) :
    (b.addvp i).road_adjacency = b.road_adjacency := by
  unfold Board.addvp; dsimp only
  repeat' split
  all_goals rfl

theorem award_sca (b : Board) (p : Nat) (l : Int) (b' : Board)
    (h : b.longest_road_award p l = .ok b') :
    b'.settlements = b.settlements ∧ b'.cities = b.cities ∧
    b'.road_adjacency = b.road_adjacency := by
  unfold Board.longest_road_award at h
  dsimp only at h
  repeat' split at h
  all_goals first
    | exact Except.noConfusion h
    | (injection h with h1; exact h1 ▸ ⟨rfl, rfl, rfl⟩)

theorem crl_sca (b : Board) (p loc : Nat) :
    (b.check_road_length p loc).2.settlements = b.settlements ∧
    (b.check_road_length p loc).2.cities = b.cities ∧
    (b.check_road_length p loc).2.road_adjacency = b.road_adjacency := by
  unfold Board.check_road_length
  dsimp only
  repeat' split
  all_goals first
    | exact ⟨rfl, rfl, rfl⟩
    | (rename_i heq; exact award_sca _ _ _ _ heq)

theorem crl_sca2 (b : Board) (p loc : Nat) (o : Outcome) (b2 : Board)
    (h : b.check_road_length p loc = (o, b2)) :
    b2.settlements = b.settlements ∧ b2.cities = b.cities ∧
    b2.road_adjacency = b.road_adjacency := by
  have hx := crl_sca b p loc
  rw [h] at hx
  exact hx

theorem build_road_sca (b : Board) (p loc : Nat) (free : Bool) :
    (b.build_road p loc free).2.settlements = b.settlements ∧
    (b.build_road p loc free).2.cities = b.cities ∧
    (b.build_road p loc free).2.road_adjacency = b.road_adjacency := by
  unfold Board.build_road
  dsimp only
  repeat' split
  all_goals try exact ⟨rfl, rfl, rfl⟩
  all_goals (
    rename_i heq
    have h := crl_sca2 _ p loc _ _ heq
    exact ⟨h.1, h.2.1, h.2.2⟩)

theorem buy_devcard_sca (b : Board) (p : Nat) :
    (b.buy_devcard p).2.settlements = b.settlements ∧
    (b.buy_devcard p).2.cities = b.cities ∧
    (b.buy_devcard p).2.road_adjacency = b.road_adjacency := by
  unfold Board.buy_devcard
  dsimp only
  repeat' split
  all_goals exact ⟨rfl, rfl, rfl⟩

theorem creditOwners_sca (b : Board) (owners : List Nat) (r : Bank) :
    (creditOwners b owners r).2.settlements = b.settlements ∧
    (creditOwners b owners r).2.cities = b.cities ∧
    (creditOwners b owners r).2.road_adjacency = b.road_adjacency := by
  unfold creditOwners
  refine foldl_preserve
    (fun (acc : Option PyErr × Board) => acc.2.settlements = b.settlements ∧
      acc.2.cities = b.cities ∧ acc.2.road_adjacency = b.road_adjacency)
    _ ?_ owners (none, b) ⟨rfl, rfl, rfl⟩
  intro x a hx
  dsimp only
  repeat' split
  all_goals exact hx

theorem creditOwners_sca2 (st : Board) (ows : List Nat) (r : Bank)
    (o : Option PyErr) (st1 : Board) (h : creditOwners st ows r = (o, st1)) :
    st1.settlements = st.settlements ∧ st1.cities = st.cities ∧
    st1.road_adjacency = st.road_adjacency := by
  have hx := creditOwners_sca st ows r
  rw [h] at hx
  exact hx

theorem rollTiles_sca (b : Board) (result : Int) :
    (rollTiles b result).2.settlements = b.settlements ∧
    (rollTiles b result).2.cities = b.cities ∧
    (rollTiles b result).2.road_adjacency = b.road_adjacency := by
  have hz := foldl_preserve
    (fun (acc : Option PyErr × Board) => acc.2.settlements = b.settlements ∧
      acc.2.cities = b.cities ∧ acc.2.road_adjacency = b.road_adjacency)
    (fun (acc : Option PyErr × Board) x =>
      match acc with
      | (some e, st) => (some e, st)
      | (none, st) =>
        if x.2.produce result then
          match st.t2s x.1 with
          | .error e => (some e, st)
          | .ok spots =>
            match creditOwners st (maskSelect st.settlements spots) (x.2.give 1) with
            | (some e, st1) => (some e, st1)
            | (none, st1) =>
              creditOwners st1 (maskSelect st1.cities spots) (x.2.give 2)
        else (none, st))
    ?_ b.tiles.enum (none, b) ⟨rfl, rfl, rfl⟩
  case refine_2 =>
    unfold rollTiles
    dsimp only
    repeat' split
    all_goals (rename_i heq; rw [heq] at hz; exact hz)
  case refine_1 =>
    intro x a hx
    dsimp only
    repeat' split
    all_goals try exact hx
    · rename_i heq
      have h1 := creditOwners_sca2 _ _ _ _ _ heq
      exact ⟨h1.1.trans hx.1, h1.2.1.trans hx.2.1, h1.2.2.trans hx.2.2⟩
    · rename_i heq
      have h1 := creditOwners_sca2 _ _ _ _ _ heq
      exact ⟨(creditOwners_sca _ _ _).1.trans (h1.1.trans hx.1),
        (creditOwners_sca _ _ _).2.1.trans (h1.2.1.trans hx.2.1),
        (creditOwners_sca _ _ _).2.2.trans (h1.2.2.trans hx.2.2)⟩

theorem roll_sca (b : Board) (fix : Option Int) (d1 d2 : Int) :
    (b.roll fix d1 d2).2.settlements = b.settlements ∧
    (b.roll fix d1 d2).2.cities = b.cities ∧
    (b.roll fix d1 d2).2.road_adjacency = b.road_adjacency := by
  unfold Board.roll
  dsimp only
  repeat' split
  all_goals first
    | exact ⟨rfl, rfl, rfl⟩
    | (refine ⟨(rollTiles_sca _ _).1.trans ?_, (rollTiles_sca _ _).2.1.trans ?_,
        (rollTiles_sca _ _).2.2.trans ?_⟩ <;> rfl)

theorem rob_sca (b : Board) (p1 p2 t : Nat) (draw : Int) :
    (b.rob p1 p2 t draw).2.settlements = b.settlements ∧
    (b.rob p1 p2 t draw).2.cities = b.cities ∧
    (b.rob p1 p2 t draw).2.road_adjacency = b.road_adjacency := by
  unfold Board.rob
  dsimp only
  repeat' split
  all_goals exact ⟨rfl, rfl, rfl⟩

theorem rob_sca2 (b : Board) (p1 p2 t : Nat) (draw : Int) (o : Outcome)
    (b1 : Board) (h : b.rob p1 p2 t draw = (o, b1)) :
    b1.settlements = b.settlements ∧ b1.cities = b.cities ∧
    b1.road_adjacency = b.road_adjacency := by
  have hx := rob_sca b p1 p2 t draw
  rw [h] at hx
  exact hx

theorem knight_sca (b : Board) (p s1 s2 : Nat) (draw : Int) :
    (b.knight p s1 s2 draw).2.settlements = b.settlements ∧
    (b.knight p s1 s2 draw).2.cities = b.cities ∧
    (b.knight p s1 s2 draw).2.road_adjacency = b.road_adjacency := by
  unfold Board.knight
  cases hr : b.rob p s1 s2 draw with
  | mk o b1 =>
    have h := rob_sca2 b p s1 s2 draw o b1 hr
    cases o <;> dsimp only
    case success =>
      repeat' split
      all_goals simp [h.1, h.2.1, h.2.2]
    all_goals exact h

theorem monopoly_sca (b : Board) (p : Nat) (sp : Option Resource) :
    (b.monopoly p sp).2.settlements = b.settlements ∧
    (b.monopoly p sp).2.cities = b.cities ∧
    (b.monopoly p sp).2.road_adjacency = b.road_adjacency := by
  unfold Board.monopoly
  repeat' split
  all_goals exact ⟨rfl, rfl, rfl⟩

theorem yop_sca (b : Board) (p : Nat) (sp : Option Bank) :
    (b.year_of_plenty p sp).2.settlements = b.settlements ∧
    (b.year_of_plenty p sp).2.cities = b.cities ∧
    (b.year_of_plenty p sp).2.road_adjacency = b.road_adjacency := by
  unfold Board.year_of_plenty
  repeat' split
  all_goals exact ⟨rfl, rfl, rfl⟩

theorem build_road_sca2 (b : Board) (p loc : Nat) (free : Bool) (o : Outcome)
    (b1 : Board) (h : b.build_road p loc free = (o, b1)) :
    b1.settlements = b.settlements ∧ b1.cities = b.cities ∧
    b1.road_adjacency = b.road_adjacency := by
  have hx := build_road_sca b p loc free
  rw [h] at hx
  exact hx

theorem road_building_sca (b : Board) (p : Nat) (sp : Option (Nat × Nat)) :
    (b.road_building p sp).2.settlements = b.settlements ∧
    (b.road_building p sp).2.cities = b.cities ∧
    (b.road_building p sp).2.road_adjacency = b.road_adjacency := by
  unfold Board.road_building
  cases sp with
  | none => exact ⟨rfl, rfl, rfl⟩
  | some pr =>
    cases pr with
    | mk l1 l2 =>
      dsimp only
      cases hr1 : b.build_road p l1 true with
      | mk o1 b1 =>
        have h1 := build_road_sca2 b p l1 true o1 b1 hr1
        cases o1 <;> dsimp only
        case success =>
          cases hr2 : b1.build_road p l2 true with
          | mk o2 b2 =>
            have h2 := build_road_sca2 b1 p l2 true o2 b2 hr2
            cases o2 <;> dsimp only
            all_goals exact ⟨h2.1.trans h1.1, h2.2.1.trans h1.2.1,
              h2.2.2.trans h1.2.2⟩
        all_goals exact h1

theorem flipAnd_sca (b : Board) (p : Nat) (card : Card) (turn : Int) :
    (flipAnd b p card turn).2.settlements = b.settlements ∧
    (flipAnd b p card turn).2.cities = b.cities ∧
    (flipAnd b p card turn).2.road_adjacency = b.road_adjacency := by
  unfold flipAnd
  repeat' split
  all_goals exact ⟨rfl, rfl, rfl⟩

theorem flipAnd_sca2 (b : Board) (p : Nat) (card : Card) (turn : Int)
    (o : Outcome) (b1 : Board) (h : flipAnd b p card turn = (o, b1)) :
    b1.settlements = b.settlements ∧ b1.cities = b.cities ∧
    b1.road_adjacency = b.road_adjacency := by
  have hx := flipAnd_sca b p card turn
  rw [h] at hx
  exact hx

theorem monopoly_sca2 (b : Board) (p : Nat) (sp : Option Resource)
    (o : Outcome) (b1 : Board) (h : b.monopoly p sp = (o, b1)) :
    b1.settlements = b.settlements ∧ b1.cities = b.cities ∧
    b1.road_adjacency = b.road_adjacency := by
  have hx := monopoly_sca b p sp
  rw [h] at hx
  exact hx

theorem yop_sca2 (b : Board) (p : Nat) (sp : Option Bank)
    (o : Outcome) (b1 : Board) (h : b.year_of_plenty p sp = (o, b1)) :
    b1.settlements = b.settlements ∧ b1.cities = b.cities ∧
    b1.road_adjacency = b.road_adjacency := by
  have hx := yop_sca b p sp
  rw [h] at hx
  exact hx

theorem road_building_sca2 (b : Board) (p : Nat) (sp : Option (Nat × Nat))
    (o : Outcome) (b1 : Board) (h : b.road_building p sp = (o, b1)) :
    b1.settlements = b.settlements ∧ b1.cities = b.cities ∧
    b1.road_adjacency = b.road_adjacency := by
  have hx := road_building_sca b p sp
  rw [h] at hx
  exact hx

theorem knight_sca2 (b : Board) (p s1 s2 : Nat) (draw : Int)
    (o : Outcome) (b1 : Board) (h : b.knight p s1 s2 draw = (o, b1)) :
    b1.settlements = b.settlements ∧ b1.cities = b.cities ∧
    b1.road_adjacency = b.road_adjacency := by
  have hx := knight_sca b p s1 s2 draw
  rw [h] at hx
  exact hx

theorem activate_sca (b : Board) (p : Nat) (card : Card) (turn : Int)
    (sp : Special) (draw : Int) :
    (b.activate_devcard p card turn sp draw).2.settlements = b.settlements ∧
    (b.activate_devcard p card turn sp draw).2.cities = b.cities ∧
    (b.activate_devcard p card turn sp draw).2.road_adjacency
      = b.road_adjacency := by
  unfold Board.activate_devcard
  cases hpl : b.players.get? p with
  | none => exact ⟨rfl, rfl, rfl⟩
  | some pl =>
    dsimp only
    split
    case isFalse => exact ⟨rfl, rfl, rfl⟩
    case isTrue =>
      cases card <;> dsimp only
      case knight =>
        cases sp <;> dsimp only
        case ints a c =>
          cases hr : b.knight p a c draw with
          | mk o b1 =>
            have h1 := knight_sca2 _ _ _ _ _ _ _ hr
            cases o <;> dsimp only
            case success =>
              cases hf : flipAnd b1 p .knight turn with
              | mk o2 b2 =>
                have h2 := flipAnd_sca2 b1 p .knight turn o2 b2 hf
                exact ⟨h2.1.trans h1.1, h2.2.1.trans h1.2.1,
                  h2.2.2.trans h1.2.2⟩
            all_goals exact h1
        all_goals exact ⟨rfl, rfl, rfl⟩
      case victory =>
        cases hf : flipAnd (b.addvp p) p .victory turn with
        | mk o2 b2 =>
          have h2 := flipAnd_sca2 (b.addvp p) p .victory turn o2 b2 hf
          exact ⟨h2.1.trans (addvp_settlements b p),
            h2.2.1.trans (addvp_cities b p),
            h2.2.2.trans (addvp_radj b p)⟩
      case monopolyCard =>
        cases hr : b.monopoly p
            (match sp with | .strRes (some r) => some r | _ => none) with
        | mk o b1 =>
          have h1 := monopoly_sca2 _ _ _ _ _ hr
          cases o <;> dsimp only
          case success =>
            cases hf : flipAnd b1 p .monopolyCard turn with
            | mk o2 b2 =>
              have h2 := flipAnd_sca2 b1 p .monopolyCard turn o2 b2 hf
              exact ⟨h2.1.trans h1.1, h2.2.1.trans h1.2.1,
                h2.2.2.trans h1.2.2⟩
          all_goals exact h1
      case roadBuildingCard =>
        cases hr : b.road_building p
            (match sp with | .ints a c => some (a, c) | _ => none) with
        | mk o b1 =>
          have h1 := road_building_sca2 _ _ _ _ _ hr
          cases o <;> dsimp only
          case success =>
            cases hf : flipAnd b1 p .roadBuildingCard turn with
            | mk o2 b2 =>
              have h2 := flipAnd_sca2 b1 p .roadBuildingCard turn o2 b2 hf
              exact ⟨h2.1.trans h1.1, h2.2.1.trans h1.2.1,
                h2.2.2.trans h1.2.2⟩
          all_goals exact h1
      case yearOfPlentyCard =>
        cases hr : b.year_of_plenty p
            (match sp with | .dict5 bk => some bk | _ => none) with
        | mk o b1 =>
          have h1 := yop_sca2 _ _ _ _ _ hr
          cases o <;> dsimp only
          case success =>
            cases hf : flipAnd b1 p .yearOfPlentyCard turn with
            | mk o2 b2 =>
              have h2 := flipAnd_sca2 b1 p .yearOfPlentyCard turn o2 b2 hf
              exact ⟨h2.1.trans h1.1, h2.2.1.trans h1.2.1,
                h2.2.2.trans h1.2.2⟩
          all_goals exact h1
      case unknown => exact ⟨rfl, rfl, rfl⟩

theorem creditLoop_sca (player : Nat) :
    ∀ (tmask : List Bool) (st : Board) (i : Nat),
      (creditLoop player st i tmask).2.settlements = st.settlements ∧
      (creditLoop player st i tmask).2.cities = st.cities ∧
      (creditLoop player st i tmask).2.road_adjacency = st.road_adjacency := by
  intro tmask
  induction tmask with
  | nil => intro st i; exact ⟨rfl, rfl, rfl⟩
  | cons t rest ih =>
    intro st i
    unfold creditLoop
    try dsimp only
    repeat' split
    all_goals first
      | exact ⟨rfl, rfl, rfl⟩
      | exact ih _ _
      | (refine ⟨((ih _ _).1).trans ?_, ((ih _ _).2.1).trans ?_,
          ((ih _ _).2.2).trans ?_⟩ <;> rfl)

theorem creditTiles_sca2 (b : Board) (player : Nat) (tmask : List Bool)
    (e : Option PyErr) (b4 : Board) (h : creditTiles b player tmask = (e, b4)) :
    b4.settlements = b.settlements ∧ b4.cities = b.cities ∧
    b4.road_adjacency = b.road_adjacency := by
  have hx := creditLoop_sca player tmask b 0
  unfold creditTiles at h
  rw [h] at hx
  exact hx

theorem build_settlement_shape (A : Board) (p loc : Nat) (i g : Bool)
    (o : Outcome) (A2 : Board) (h : A.build_settlement p loc i g = (o, A2)) :
    (A2.settlements = A.settlements ∨
      A2.settlements = A.settlements.set loc p) ∧
    A2.cities = A.cities ∧ A2.road_adjacency = A.road_adjacency := by
  unfold Board.build_settlement at h
  try dsimp only at h
  repeat' split at h
  all_goals (injection h with h1 h2; subst h2)
  all_goals try (refine ⟨Or.inl ?_, ?_, ?_⟩ <;> (simp; done))
  all_goals try (refine ⟨Or.inr ?_, ?_, ?_⟩ <;> (simp; done))
  all_goals (rename_i heq
             have hcl := creditTiles_sca2 _ _ _ _ _ heq
             refine ⟨Or.inr ?_, ?_, ?_⟩ <;>
               simp [hcl.1, hcl.2.1, hcl.2.2])

theorem build_city_shape (A : Board) (p loc : Nat)
    (o : Outcome) (A2 : Board) (h : A.build_city p loc = (o, A2)) :
    ((A2.settlements = A.settlements ∧ A2.cities = A.cities) ∨
      (A2.settlements = A.settlements.set loc 0 ∧
       A2.cities = A.cities.set loc p)) ∧
    A2.road_adjacency = A.road_adjacency := by
  unfold Board.build_city at h
  try dsimp only at h
  repeat' split at h
  all_goals (injection h with h1 h2; subst h2)
  all_goals first
    | exact ⟨Or.inl ⟨rfl, rfl⟩, rfl⟩
    | exact ⟨Or.inr ⟨rfl, rfl⟩, rfl⟩

theorem get?_set_ne {α : Type _} (l : List α) (i j : Nat) (x : α)
    (h : i ≠ j) : (l.set i x).get? j = l.get? j := by
  rw [List.get?_eq_getElem?, List.getElem?_set_ne h, ← List.get?_eq_getElem?]

theorem step_inv (v : Nat) (A : Board) (op : GameOp) (hop : op.realActor)
    (h2 : A.settlements.length = 54) (h3 : A.cities.length = 54)
    (h4 : (∃ k, A.settlements.get? v = some k ∧ 1 ≤ k) ∨
          (∃ k, A.cities.get? v = some k ∧ 1 ≤ k)) :
    (stepOp A op).road_adjacency = A.road_adjacency ∧
    (stepOp A op).settlements.length = 54 ∧
    (stepOp A op).cities.length = 54 ∧
    ((∃ k, (stepOp A op).settlements.get? v = some k ∧ 1 ≤ k) ∨
     (∃ k, (stepOp A op).cities.get? v = some k ∧ 1 ≤ k)) := by
  have hv54 : v < 54 := by
    rcases h4 with ⟨k, hk, -⟩ | ⟨k, hk, -⟩
    · obtain ⟨hlt, -⟩ := List.get?_eq_some.mp hk
      omega
    · obtain ⟨hlt, -⟩ := List.get?_eq_some.mp hk
      omega
  cases op with
  | buildSettlementOp p loc ini g =>
    dsimp only [stepOp]
    have hsh := build_settlement_shape A p loc ini g
      (A.build_settlement p loc ini g).1 (A.build_settlement p loc ini g).2 rfl
    obtain ⟨hs, hc, hr⟩ := hsh
    refine ⟨hr, ?_, ?_, ?_⟩
    · cases hs with
      | inl h => rw [h]; exact h2
      | inr h => rw [h, List.length_set]; exact h2
    · rw [hc]; exact h3
    · cases hs with
      | inl h =>
        rw [h, hc]
        exact h4
      | inr h =>
        rw [h, hc]
        by_cases hlv : loc = v
        · subst hlv
          exact Or.inl ⟨p, get?_set_self_of_lt _ loc p (by omega), hop⟩
        · rw [get?_set_ne _ _ _ _ hlv]
          exact h4
  | buildCityOp p loc =>
    dsimp only [stepOp]
    have hsh := build_city_shape A p loc
      (A.build_city p loc).1 (A.build_city p loc).2 rfl
    obtain ⟨hs, hr⟩ := hsh
    refine ⟨hr, ?_⟩
    cases hs with
    | inl h =>
      rw [h.1, h.2]
      exact ⟨h2, h3, h4⟩
    | inr h =>
      rw [h.1, h.2, List.length_set, List.length_set]
      refine ⟨h2, h3, ?_⟩
      by_cases hlv : loc = v
      · subst hlv
        exact Or.inr ⟨p, get?_set_self_of_lt _ loc p (by omega), hop⟩
      · rw [get?_set_ne _ _ _ _ hlv, get?_set_ne _ _ _ _ hlv]
        exact h4
  | buildRoadOp p loc free =>
    obtain ⟨hs, hc, hr⟩ := build_road_sca A p loc free
    exact ⟨hr, hs ▸ h2, hc ▸ h3, hs ▸ hc ▸ h4⟩
  | buyDevcardOp p =>
    obtain ⟨hs, hc, hr⟩ := buy_devcard_sca A p
    exact ⟨hr, hs ▸ h2, hc ▸ h3, hs ▸ hc ▸ h4⟩
  | rollOp fix d1 d2 =>
    obtain ⟨hs, hc, hr⟩ := roll_sca A fix d1 d2
    exact ⟨hr, hs ▸ h2, hc ▸ h3, hs ▸ hc ▸ h4⟩
  | robOp p1 p2 t draw =>
    obtain ⟨hs, hc, hr⟩ := rob_sca A p1 p2 t draw
    exact ⟨hr, hs ▸ h2, hc ▸ h3, hs ▸ hc ▸ h4⟩
  | knightOp p s1 s2 draw =>
    obtain ⟨hs, hc, hr⟩ := knight_sca A p s1 s2 draw
    exact ⟨hr, hs ▸ h2, hc ▸ h3, hs ▸ hc ▸ h4⟩
  | monopolyOp p sp =>
    obtain ⟨hs, hc, hr⟩ := monopoly_sca A p sp
    exact ⟨hr, hs ▸ h2, hc ▸ h3, hs ▸ hc ▸ h4⟩
  | yearOfPlentyOp p sp =>
    obtain ⟨hs, hc, hr⟩ := yop_sca A p sp
    exact ⟨hr, hs ▸ h2, hc ▸ h3, hs ▸ hc ▸ h4⟩
  | roadBuildingOp p sp =>
    obtain ⟨hs, hc, hr⟩ := road_building_sca A p sp
    exact ⟨hr, hs ▸ h2, hc ▸ h3, hs ▸ hc ▸ h4⟩
  | activateOp p card turn sp draw =>
    obtain ⟨hs, hc, hr⟩ := activate_sca A p card turn sp draw
    exact ⟨hr, hs ▸ h2, hc ▸ h3, hs ▸ hc ▸ h4⟩

theorem run_inv (v : Nat) :
    ∀ (ops : List GameOp) (A : Board), (∀ op ∈ ops, op.realActor) →
      A.settlements.length = 54 → A.cities.length = 54 →
      ((∃ k, A.settlements.get? v = some k ∧ 1 ≤ k) ∨
       (∃ k, A.cities.get? v = some k ∧ 1 ≤ k)) →
      (A.run ops).road_adjacency = A.road_adjacency ∧
      (A.run ops).settlements.length = 54 ∧
      (A.run ops).cities.length = 54 ∧
      ((∃ k, (A.run ops).settlements.get? v = some k ∧ 1 ≤ k) ∨
       (∃ k, (A.run ops).cities.get? v = some k ∧ 1 ≤ k)) := by
  intro ops
  induction ops with
  | nil => intro A _ h2 h3 h4; exact ⟨rfl, h2, h3, h4⟩
  | cons op rest ih =>
    intro A hops h2 h3 h4
    have hop : op.realActor := hops op (by simp)
    have hstep := step_inv v A op hop h2 h3 h4
    have hrest := ih (stepOp A op)
      (fun o ho => hops o (by simp [ho])) hstep.2.1 hstep.2.2.1 hstep.2.2.2
    show ((stepOp A op).run rest).road_adjacency = A.road_adjacency ∧ _
    exact ⟨hrest.1.trans hstep.1, hrest.2.1, hrest.2.2.1, hrest.2.2.2⟩

theorem blockSum_pos :
    ∀ (v : Nat) (s c : List Nat) (mask : List Bool) (a bb : Nat),
      s.get? v = some a → c.get? v = some bb → mask.get? v = some true →
      1 ≤ a + bb → 0 < blockSum s c mask := by
  intro v
  induction v with
  | zero =>
    intro s c mask a bb hs hc hm h1
    cases s with
    | nil => simp at hs
    | cons x s2 =>
      cases c with
      | nil => simp at hc
      | cons y c2 =>
        cases mask with
        | nil => simp at hm
        | cons m m2 =>
          simp at hs hc hm
          subst hs; subst hc; subst hm
          simp [blockSum]
          omega
  | succ n ih =>
    intro s c mask a bb hs hc hm h1
    cases s with
    | nil => simp at hs
    | cons x s2 =>
      cases c with
      | nil => simp at hc
      | cons y c2 =>
        cases mask with
        | nil => simp at hm
        | cons m m2 =>
          simp only [List.get?_cons_succ] at hs hc hm
          have hrest := ih s2 c2 m2 a bb hs hc hm h1
          have : blockSum (x :: s2) (y :: c2) (m :: m2)
              = (if m then x + y else 0) + blockSum s2 c2 m2 := by
            simp [blockSum]
          omega

theorem build_settlement_blocked (B : Board) (q w : Nat) (i2 g2 : Bool)
    (mask : List Bool) (hS : B.s2s w = .ok mask)
    (hpos : blockSum B.settlements B.cities mask ≠ 0) :
    B.build_settlement q w i2 g2 = (.failure .blocked, B) := by
  unfold Board.build_settlement
  simp only [hS]
  rw [if_neg hpos]

theorem build_settlement_success_sets (b : Board) (p v : Nat) (i g : Bool)
    (b0 : Board) (h : b.build_settlement p v i g = (.success, b0)) :
    b0.settlements = b.settlements.set v p ∧ b0.cities = b.cities ∧
    b0.road_adjacency = b.road_adjacency := by
  unfold Board.build_settlement at h
  try dsimp only at h
  repeat' split at h
  all_goals (injection h with h1 h2)
  all_goals try exact Outcome.noConfusion h1
  all_goals subst h2
  all_goals try (refine ⟨?_, ?_, ?_⟩ <;> (simp; done))
  all_goals (rename_i heq
             have hcl := creditTiles_sca2 _ _ _ _ _ heq
             refine ⟨?_, ?_, ?_⟩ <;> (simp [hcl.1, hcl.2.1, hcl.2.2]; done))

theorem build_settlement_success_s2s (b : Board) (p v : Nat) (i g : Bool)
    (b0 : Board) (h : b.build_settlement p v i g = (.success, b0)) :
    ∃ mask, b.s2s v = .ok mask := by
  cases hS : b.s2s v with
  | ok m => exact ⟨m, rfl⟩
  | error e =>
    unfold Board.build_settlement at h
    simp only [hS] at h
    injection h with h1 h2
    exact Outcome.noConfusion h1

theorem s2s_radj (B1 B2 : Board) (h : B1.road_adjacency = B2.road_adjacency)
    (w : Nat) : B1.s2s w = B2.s2s w := by
  unfold Board.s2s Board.s2r ilocCol
  rw [h]

theorem zipOr_getD :
    ∀ (a r : List Bool) (j : Nat), a.length = r.length →
      (List.zipWith (· || ·) a r).getD j false
        = (a.getD j false || r.getD j false) := by
  intro a
  induction a with
  | nil =>
    intro r j hl
    cases r with
    | nil => simp
    | cons y r2 => simp at hl
  | cons x a2 ih =>
    intro r j hl
    cases r with
    | nil => simp at hl
    | cons y r2 =>
      cases j with
      | zero => simp
      | succ n =>
        simp only [List.zipWith_cons_cons, List.getD_cons_succ]
        exact ih r2 n (by simpa using hl)

theorem replicate_getD_false (n j : Nat) :
    (List.replicate n false).getD j false = false := by
  rw [List.getD_eq_getElem?_getD, List.getElem?_replicate]
  split <;> rfl

theorem orRows_fold_length :
    ∀ (rows : List (List Bool)) (acc : List Bool),
      (∀ row ∈ rows, row.length = 54) → acc.length = 54 →
      (rows.foldl (fun a row => List.zipWith (· || ·) a row) acc).length = 54 := by
  intro rows
  induction rows with
  | nil => intro acc _ ha; simpa using ha
  | cons r rs ih =>
    intro acc hrows ha
    have hr : r.length = 54 := hrows r (by simp)
    simp only [List.foldl_cons]
    refine ih (List.zipWith (· || ·) acc r) (fun x hx => hrows x (by simp [hx])) ?_
    rw [List.length_zipWith, ha, hr]
    simp

theorem orRows_length (rows : List (List Bool))
    (h : ∀ row ∈ rows, row.length = 54) : (orRows rows).length = 54 :=
  orRows_fold_length rows (List.replicate 54 false) h (by simp)

theorem orRows_fold_getD :
    ∀ (rows : List (List Bool)) (acc : List Bool) (j : Nat),
      (∀ row ∈ rows, row.length = 54) → acc.length = 54 →
      (rows.foldl (fun a row => List.zipWith (· || ·) a row) acc).getD j false
        = (acc.getD j false || rows.any fun row => row.getD j false) := by
  intro rows
  induction rows with
  | nil => intro acc j _ _; simp
  | cons r rs ih =>
    intro acc j hrows ha
    have hr : r.length = 54 := hrows r (by simp)
    have hstep := ih (List.zipWith (· || ·) acc r) j
      (fun x hx => hrows x (by simp [hx]))
      (by rw [List.length_zipWith, ha, hr]; simp)
    simp only [List.foldl_cons]
    rw [hstep, zipOr_getD acc r j (by rw [ha, hr]), List.any_cons]
    cases acc.getD j false <;> cases r.getD j false <;> simp

theorem orRows_getD (rows : List (List Bool)) (j : Nat)
    (h : ∀ row ∈ rows, row.length = 54) :
    (orRows rows).getD j false = rows.any fun row => row.getD j false := by
  unfold orRows
  rw [orRows_fold_getD rows (List.replicate 54 false) j h (by simp),
    replicate_getD_false, Bool.false_or]

theorem zip_get?_some {α β : Type _} :
    ∀ (l1 : List α) (l2 : List β) (e : Nat) (x : α) (y : β),
      ((List.zip l1 l2).get? e = some (x, y)
        ↔ (l1.get? e = some x ∧ l2.get? e = some y)) := by
  intro l1
  induction l1 with
  | nil => intro l2 e x y; simp [List.zip]
  | cons a l1t ih =>
    intro l2 e x y
    cases l2 with
    | nil => simp [List.zip]
    | cons bb l2t =>
      cases e with
      | zero => simp [Prod.ext_iff, eq_comm]
      | succ n =>
        simp only [List.zip_cons_cons, List.get?_cons_succ]
        exact ih l2t n x y

theorem sel_mem_iff (radj : List (List Bool)) (v : Nat) (row : List Bool) :
    row ∈ (((List.zip (radj.map fun r => r.getD v false) radj).filter
        (·.1)).map (·.2))
      ↔ ∃ e, radj.get? e = some row ∧ row.getD v false = true := by
  constructor
  · intro hm
    obtain ⟨pr, hfil, hpr⟩ := List.mem_map.mp hm
    have hfil2 := List.mem_filter.mp hfil
    obtain ⟨e, hze⟩ := List.mem_iff_get?.mp hfil2.1
    cases pr with
    | mk p1 p2 =>
      obtain ⟨h1, h2⟩ := (zip_get?_some _ _ _ _ _).mp hze
      dsimp at hpr
      subst hpr
      have hp1 : p1 = true := by simpa using hfil2.2
      subst hp1
      rw [List.get?_eq_getElem?, List.getElem?_map, ← List.get?_eq_getElem?,
        h2] at h1
      injection h1 with h1
      exact ⟨e, h2, h1⟩
  · rintro ⟨e, he, hgd⟩
    have h1 : (radj.map fun r => r.getD v false).get? e = some true := by
      rw [List.get?_eq_getElem?, List.getElem?_map, ← List.get?_eq_getElem?, he]
      exact congrArg some hgd
    have hze : (List.zip (radj.map fun r => r.getD v false) radj).get? e
        = some (true, row) := (zip_get?_some _ _ _ _ _).mpr ⟨h1, he⟩
    refine List.mem_map.mpr ⟨(true, row), ?_, rfl⟩
    exact List.mem_filter.mpr ⟨List.get?_mem hze, by simp⟩

theorem getD_true_get? (l : List Bool) (j : Nat)
    (h : l.getD j false = true) : l.get? j = some true := by
  cases hq : l.get? j with
  | none =>
    rw [List.getD_eq_getElem?_getD, ← List.get?_eq_getElem?, hq] at h
    simp at h
  | some x =>
    rw [List.getD_eq_getElem?_getD, ← List.get?_eq_getElem?, hq] at h
    simp at h
    rw [h]

theorem s2s_ok_form (b : Board) (v : Nat) (mask : List Bool)
    (h : b.s2s v = .ok mask) :
    ∃ r, b.s2r v = .ok r ∧
      mask = (orRows (((List.zip r b.road_adjacency).filter (·.1)).map
        (·.2))).set v false := by
  cases hr : b.s2r v with
  | error e =>
    unfold Board.s2s at h
    rw [hr] at h
    simp only [Bind.bind, Except.bind] at h
    exact Except.noConfusion h
  | ok r =>
    unfold Board.s2s at h
    rw [hr] at h
    simp only [Bind.bind, Except.bind, pure, Except.pure] at h
    injection h with h1
    exact ⟨r, rfl, h1.symm⟩

theorem s2r_ok_form (b : Board) (hWF : b.WF) (v : Nat) (hv : v < 54) :
    b.s2r v = .ok (b.road_adjacency.map fun row => row.getD v false) := by
  obtain ⟨-, hrows, -⟩ := hWF
  unfold Board.s2r ilocCol
  exact colLoop_ok v b.road_adjacency
    (fun row hr => by rw [hrows row hr]; exact hv)

theorem s2s_mem_exists (b : Board) (hWF : b.WF) (v w : Nat)
    (mask : List Bool) (h : b.s2s v = .ok mask)
    (hw : mask.get? w = some true) :
    w ≠ v ∧ w < 54 ∧ ∃ e row, b.road_adjacency.get? e = some row ∧
      row.getD v false = true ∧ row.getD w false = true := by
  obtain ⟨r, hr, hm⟩ := s2s_ok_form b v mask h
  have hv54 : v < 54 := s2r_ok_lt b v r hWF hr
  have hrform := s2r_ok_form b hWF v hv54
  rw [hr] at hrform
  injection hrform with hrform
  subst hrform
  subst hm
  have hsel54 : ∀ row ∈ ((List.zip
      (b.road_adjacency.map fun rw2 => rw2.getD v false)
        b.road_adjacency).filter (·.1)).map (·.2), row.length = 54 := by
    intro row hrow
    obtain ⟨e, he, -⟩ := (sel_mem_iff b.road_adjacency v row).mp hrow
    exact hWF.2.1 row (List.get?_mem he)
  have hlen : (orRows (((List.zip
      (b.road_adjacency.map fun rw2 => rw2.getD v false)
        b.road_adjacency).filter (·.1)).map (·.2))).length = 54 :=
    orRows_length _ hsel54
  have hwv : w ≠ v := by
    intro heq
    subst heq
    rw [get?_set_self_of_lt _ w false (by rw [hlen]; exact hv54)] at hw
    simp at hw
  have hw2 : (orRows (((List.zip
      (b.road_adjacency.map fun rw2 => rw2.getD v false)
        b.road_adjacency).filter (·.1)).map (·.2))).get? w = some true := by
    rw [get?_set_ne _ v w false (fun hh => hwv hh.symm)] at hw
    exact hw
  have hwlt : w < 54 := by
    obtain ⟨hlt, -⟩ := List.get?_eq_some.mp hw2
    rw [hlen] at hlt
    exact hlt
  have hgdw : (orRows (((List.zip
      (b.road_adjacency.map fun rw2 => rw2.getD v false)
        b.road_adjacency).filter (·.1)).map (·.2))).getD w false = true := by
    rw [List.getD_eq_getElem?_getD, ← List.get?_eq_getElem?, hw2]
    rfl
  rw [orRows_getD _ _ hsel54] at hgdw
  obtain ⟨row, hrowmem, hrowgd⟩ := List.any_eq_true.mp hgdw
  obtain ⟨e, he, hgdv⟩ := (sel_mem_iff b.road_adjacency v row).mp hrowmem
  exact ⟨hwv, hwlt, e, row, he, hgdv, hrowgd⟩

theorem s2s_mem_intro (b : Board) (hWF : b.WF) (v w : Nat)
    (hv : v < 54) (hw : w < 54) (hne : w ≠ v) (e : Nat) (row : List Bool)
    (he : b.road_adjacency.get? e = some row)
    (hgv : row.getD v false = true) (hgw : row.getD w false = true) :
    ∃ mask, b.s2s v = .ok mask ∧ mask.get? w = some true := by
  have hr := s2r_ok_form b hWF v hv
  have hS : b.s2s v = .ok ((orRows (((List.zip
      (b.road_adjacency.map fun rw2 => rw2.getD v false)
        b.road_adjacency).filter (·.1)).map (·.2))).set v false) := by
    unfold Board.s2s
    rw [hr]
    simp only [Bind.bind, Except.bind, pure, Except.pure]
  have hsel54 : ∀ rw2 ∈ ((List.zip
      (b.road_adjacency.map fun rw3 => rw3.getD v false)
        b.road_adjacency).filter (·.1)).map (·.2), rw2.length = 54 := by
    intro rw2 hrow
    obtain ⟨e2, he2, -⟩ := (sel_mem_iff b.road_adjacency v rw2).mp hrow
    exact hWF.2.1 rw2 (List.get?_mem he2)
  have hmem : row ∈ ((List.zip
      (b.road_adjacency.map fun rw2 => rw2.getD v false)
        b.road_adjacency).filter (·.1)).map (·.2) :=
    (sel_mem_iff b.road_adjacency v row).mpr ⟨e, he, hgv⟩
  have hany : (((List.zip
      (b.road_adjacency.map fun rw2 => rw2.getD v false)
        b.road_adjacency).filter (·.1)).map (·.2)).any
      (fun rw2 => rw2.getD w false) = true :=
    List.any_eq_true.mpr ⟨row, hmem, hgw⟩
  have hgd : (orRows (((List.zip
      (b.road_adjacency.map fun rw2 => rw2.getD v false)
        b.road_adjacency).filter (·.1)).map (·.2))).getD w false = true := by
    rw [orRows_getD _ _ hsel54]
    exact hany
  refine ⟨_, hS, ?_⟩
  rw [get?_set_ne _ v w false (fun hh => hne hh.symm)]
  exact getD_true_get? _ w hgd

theorem s2s_symm (b : Board) (hWF : b.WF) (v w : Nat) (mask : List Bool)
    (h : b.s2s v = .ok mask) (hw : mask.get? w = some true) :
    ∃ mask2, b.s2s w = .ok mask2 ∧ mask2.get? v = some true := by
  obtain ⟨hwv, hwlt, e, row, he, hgv, hgw⟩ := s2s_mem_exists b hWF v w mask h hw
  have hv54 : v < 54 := by
    obtain ⟨r, hr, -⟩ := s2s_ok_form b v mask h
    exact s2r_ok_lt b v r hWF hr
  exact s2s_mem_intro b hWF w v hwlt hv54 (fun hh => hwv hh.symm) e row he hgw hgv

theorem get?_exists_of_lt {α : Type _} (l : List α) (j : Nat)
    (h : j < l.length) : ∃ x, l.get? j = some x := by
  cases hq : l.get? j with
  | none => rw [List.get?_eq_none] at hq; omega
  | some x => exact ⟨x, rfl⟩

/-- **C4**.  Once `build_settlement` succeeds at junction `v` for a real
player id (`1 ≤ p`; id `0` is the empty-cell sentinel of the junction
arrays), every later `build_settlement` at any junction `w` one road away
from `v` returns the "You're Blocked" failure and leaves the board
unchanged — for any attempting player, after any sequence of board commands
whose settlement/city builders are real players. -/
theorem C4_settlement_blocks_neighbors (b : Board) (p v : Nat)
    (ini g : Bool) (b0 : Board) (hWF : b.WF) (hp : 1 ≤ p)
    (hbuild : b.build_settlement p v ini g = (.success, b0))
    (ops : List GameOp) (hops : ∀ op ∈ ops, op.realActor)
    (w : Nat) (mask : List Bool)
    (hS : b.s2s v = .ok mask) (hw : mask.get? w = some true) :
    ∀ q i2 g2, (b0.run ops).build_settlement q w i2 g2
      = (.failure .blocked, b0.run ops) := by
  intro q i2 g2
  obtain ⟨hs0, hc0, hr0⟩ := build_settlement_success_sets b p v ini g b0 hbuild
  have h54s : b.settlements.length = 54 := hWF.2.2.2.2.2.1
  have h54c : b.cities.length = 54 := hWF.2.2.2.2.2.2.1
  have hv54 : v < 54 := by
    obtain ⟨r, hr, -⟩ := s2s_ok_form b v mask hS
    exact s2r_ok_lt b v r hWF hr
  have hlen0s : b0.settlements.length = 54 := by
    rw [hs0, List.length_set]; exact h54s
  have hlen0c : b0.cities.length = 54 := by rw [hc0]; exact h54c
  have hocc0 : (∃ k, b0.settlements.get? v = some k ∧ 1 ≤ k) ∨
      (∃ k, b0.cities.get? v = some k ∧ 1 ≤ k) :=
    Or.inl ⟨p, by rw [hs0]
                  exact get?_set_self_of_lt _ v p (by omega), hp⟩
  have hrun := run_inv v ops b0 hops hlen0s hlen0c hocc0
  obtain ⟨mask2, hS2, hv2⟩ := s2s_symm b hWF v w mask hS hw
  have hradj : (b0.run ops).road_adjacency = b.road_adjacency :=
    hrun.1.trans hr0
  have hSfin : (b0.run ops).s2s w = .ok mask2 := by
    rw [s2s_radj (b0.run ops) b hradj w]
    exact hS2
  apply build_settlement_blocked _ q w i2 g2 mask2 hSfin
  rcases hrun.2.2.2 with ⟨k, hk, h1k⟩ | ⟨k, hk, h1k⟩
  · obtain ⟨kc, hkc⟩ := get?_exists_of_lt (b0.run ops).cities v
      (by rw [hrun.2.2.1]; exact hv54)
    have hpos := blockSum_pos v (b0.run ops).settlements (b0.run ops).cities
      mask2 k kc hk hkc hv2 (by omega)
    omega
  · obtain ⟨ks, hks⟩ := get?_exists_of_lt (b0.run ops).settlements v
      (by rw [hrun.2.1]; exact hv54)
    have hpos := blockSum_pos v (b0.run ops).settlements (b0.run ops).cities
      mask2 ks k hks hk hv2 (by omega)
    omega

set_option maxRecDepth 1000000 in
theorem C4_settlement_blocks_neighbors_witness :
    ((WB.build_settlement 1 2 true false).2.run
        [.buildRoadOp 1 2 true]).build_settlement 2 3 true false
      = (.failure .blocked,
         (WB.build_settlement 1 2 true false).2.run [.buildRoadOp 1 2 true]) :=
  C4_settlement_blocks_neighbors WB 1 2 true false
    (WB.build_settlement 1 2 true false).2
    (by decide) (by decide)
    (by rfl)
    [.buildRoadOp 1 2 true]
    (by intro op hop
        simp at hop
        subst hop
        trivial)
    3 (((List.replicate 54 false).set 1 true).set 3 true)
    (by rfl) (by rfl)
    2 true false

end Catan
